import Mathlib

/-!
Verification development for the LOAM scan-registration node
(`src/loam_velodyne/src/scanRegistration.cpp`).

Modelling conventions for the shallow embedding:
* C `float`/`double` values are modelled as real numbers.
* The fixed-size file-scope arrays (the IMU ring of length 200 and the
  40000-element scratch arrays) are modelled as total functions out of ℤ;
  every index the code uses on them is reduced modulo the array length or
  shown bounded where needed.
* The dynamically sized point-cloud vectors are modelled as lists accessed
  through a bounds-checked getter, so an out-of-bounds `operator[]` on a
  `std::vector` surfaces as `none` and the whole sweep callback is
  `Option`-valued.
* The external `tf` quaternion-to-Euler conversion is modelled by letting an
  IMU message carry the extracted roll/pitch/yaw directly; the external pcl
  NaN filter is modelled by taking the callback input to be the already
  NaN-filtered list; the external voxel-grid filter is a function parameter
  of the sweep callback.
* C integer division truncates toward zero, hence `Int.tdiv` below; the `%`
  on ring cursors only ever sees non-negative operands, where C `%` agrees
  with `Int.emod`.
-/

namespace ScanReg

noncomputable section

open Real

/-- C library `atan2` (value 0 at the origin, as glibc returns). -/
def atan2 (y x : ℝ) : ℝ :=
  if 0 < x then arctan (y / x)
  else if x < 0 then
    (if 0 ≤ y then arctan (y / x) + π else arctan (y / x) - π)
  else
    (if 0 < y then π / 2 else if y < 0 then -(π / 2) else 0)

/-- C cast from a floating value to `int`: truncation toward zero. -/
def cTrunc (r : ℝ) : ℤ :=
  if 0 ≤ r then ⌊r⌋ else ⌈r⌉

/-- Scan period: velodyne frequency is 10 Hz (source line 66). -/
def scanPeriod : ℝ := 1 / 10

/-- Lidar line count (source line 74). -/
def N_SCANS : ℤ := 16

/-- IMU circular queue length (source line 90). -/
def imuQueLength : ℤ := 200

/-- A raw point of the incoming cloud, in the sensor frame. -/
structure P3 where
  x : ℝ
  y : ℝ
  z : ℝ

/-- A point of the working cloud (`PointType`): coordinates in the internal
frame plus the composite intensity channel. -/
structure PointT where
  x : ℝ
  y : ℝ
  z : ℝ
  intensity : ℝ

/-- An IMU message, with roll/pitch/yaw already extracted from the
orientation quaternion by the external `tf` library (source lines 774-780). -/
structure ImuMsg where
  stamp : ℝ
  roll : ℝ
  pitch : ℝ
  yaw : ℝ
  linAccX : ℝ
  linAccY : ℝ
  linAccZ : ℝ

/-- All file-scope mutable state of the node (source lines 85-123 and the
per-sweep scratch arrays of lines 77-83). -/
structure GlobalState where
  imuPointerFront : ℤ
  imuPointerLast : ℤ
  imuTime : ℤ → ℝ
  imuRoll : ℤ → ℝ
  imuPitch : ℤ → ℝ
  imuYaw : ℤ → ℝ
  imuAccX : ℤ → ℝ
  imuAccY : ℤ → ℝ
  imuAccZ : ℤ → ℝ
  imuVeloX : ℤ → ℝ
  imuVeloY : ℤ → ℝ
  imuVeloZ : ℤ → ℝ
  imuShiftX : ℤ → ℝ
  imuShiftY : ℤ → ℝ
  imuShiftZ : ℤ → ℝ
  imuRollStart : ℝ
  imuPitchStart : ℝ
  imuYawStart : ℝ
  imuRollCur : ℝ
  imuPitchCur : ℝ
  imuYawCur : ℝ
  imuVeloXStart : ℝ
  imuVeloYStart : ℝ
  imuVeloZStart : ℝ
  imuShiftXStart : ℝ
  imuShiftYStart : ℝ
  imuShiftZStart : ℝ
  imuVeloXCur : ℝ
  imuVeloYCur : ℝ
  imuVeloZCur : ℝ
  imuShiftXCur : ℝ
  imuShiftYCur : ℝ
  imuShiftZCur : ℝ
  imuShiftFromStartXCur : ℝ
  imuShiftFromStartYCur : ℝ
  imuShiftFromStartZCur : ℝ
  imuVeloFromStartXCur : ℝ
  imuVeloFromStartYCur : ℝ
  imuVeloFromStartZCur : ℝ
  cloudCurvature : ℤ → ℝ
  cloudSortInd : ℤ → ℤ
  cloudNeighborPicked : ℤ → ℤ
  cloudLabel : ℤ → ℤ

/-- The state at process start: all globals zero-initialized,
`imuPointerLast = -1` (source lines 86-123). -/
def initialState : GlobalState where
  imuPointerFront := 0
  imuPointerLast := -1
  imuTime := fun _ => 0
  imuRoll := fun _ => 0
  imuPitch := fun _ => 0
  imuYaw := fun _ => 0
  imuAccX := fun _ => 0
  imuAccY := fun _ => 0
  imuAccZ := fun _ => 0
  imuVeloX := fun _ => 0
  imuVeloY := fun _ => 0
  imuVeloZ := fun _ => 0
  imuShiftX := fun _ => 0
  imuShiftY := fun _ => 0
  imuShiftZ := fun _ => 0
  imuRollStart := 0
  imuPitchStart := 0
  imuYawStart := 0
  imuRollCur := 0
  imuPitchCur := 0
  imuYawCur := 0
  imuVeloXStart := 0
  imuVeloYStart := 0
  imuVeloZStart := 0
  imuShiftXStart := 0
  imuShiftYStart := 0
  imuShiftZStart := 0
  imuVeloXCur := 0
  imuVeloYCur := 0
  imuVeloZCur := 0
  imuShiftXCur := 0
  imuShiftYCur := 0
  imuShiftZCur := 0
  imuShiftFromStartXCur := 0
  imuShiftFromStartYCur := 0
  imuShiftFromStartZCur := 0
  imuVeloFromStartXCur := 0
  imuVeloFromStartYCur := 0
  imuVeloFromStartZCur := 0
  cloudCurvature := fun _ => 0
  cloudSortInd := fun _ => 0
  cloudNeighborPicked := fun _ => 0
  cloudLabel := fun _ => 0

/-- The slot preceding slot `i` in the circular queue (the
`(x + imuQueLength - 1) % imuQueLength` pattern of source lines 258 and 396). -/
def ringBack (i : ℤ) : ℤ := (i + imuQueLength - 1) % imuQueLength

/-- The slot the next IMU sample is written to (source line 788). -/
def nextLast (st : GlobalState) : ℤ := (st.imuPointerLast + 1) % imuQueLength

/-- Gravity removal and axis swap applied to an incoming IMU message
(source lines 783-785). -/
def msgAcc (msg : ImuMsg) : ℝ × ℝ × ℝ :=
  (msg.linAccY - sin msg.roll * cos msg.pitch * (981 / 100),
   msg.linAccZ - cos msg.roll * cos msg.pitch * (981 / 100),
   msg.linAccX + sin msg.pitch * (981 / 100))

/-- Rotation of a stored acceleration sample into the world frame, the chain
of source lines 244-255 inside `AccumulateIMUShift`. -/
def accWorld (roll pitch yaw accX accY accZ : ℝ) : ℝ × ℝ × ℝ :=
  let x1 := cos roll * accX - sin roll * accY
  let y1 := sin roll * accX + cos roll * accY
  let z1 := accZ
  let x2 := x1
  let y2 := cos pitch * y1 - sin pitch * z1
  let z2 := sin pitch * y1 + cos pitch * z1
  (cos yaw * x2 + sin yaw * z2, y2, -sin yaw * x2 + cos yaw * z2)

/-- Integration of velocity and displacement, `AccumulateIMUShift`
(source lines 234-275). -/
def AccumulateIMUShift (st : GlobalState) : GlobalState :=
  let roll := st.imuRoll st.imuPointerLast
  let pitch := st.imuPitch st.imuPointerLast
  let yaw := st.imuYaw st.imuPointerLast
  let accX := st.imuAccX st.imuPointerLast
  let accY := st.imuAccY st.imuPointerLast
  let accZ := st.imuAccZ st.imuPointerLast
  let a := accWorld roll pitch yaw accX accY accZ
  let imuPointerBack := ringBack st.imuPointerLast
  let timeDiff := st.imuTime st.imuPointerLast - st.imuTime imuPointerBack
  if timeDiff < scanPeriod then
    { st with
      imuShiftX := Function.update st.imuShiftX st.imuPointerLast
        (st.imuShiftX imuPointerBack + st.imuVeloX imuPointerBack * timeDiff
          + a.1 * timeDiff * timeDiff / 2)
      imuShiftY := Function.update st.imuShiftY st.imuPointerLast
        (st.imuShiftY imuPointerBack + st.imuVeloY imuPointerBack * timeDiff
          + a.2.1 * timeDiff * timeDiff / 2)
      imuShiftZ := Function.update st.imuShiftZ st.imuPointerLast
        (st.imuShiftZ imuPointerBack + st.imuVeloZ imuPointerBack * timeDiff
          + a.2.2 * timeDiff * timeDiff / 2)
      imuVeloX := Function.update st.imuVeloX st.imuPointerLast
        (st.imuVeloX imuPointerBack + a.1 * timeDiff)
      imuVeloY := Function.update st.imuVeloY st.imuPointerLast
        (st.imuVeloY imuPointerBack + a.2.1 * timeDiff)
      imuVeloZ := Function.update st.imuVeloZ st.imuPointerLast
        (st.imuVeloZ imuPointerBack + a.2.2 * timeDiff) }
  else st

/-- The IMU callback `imuHandler` (source lines 772-799): gravity removal and
axis swap, cyclic advance of `imuPointerLast`, sample storage, then
integration. -/
def imuHandler (msg : ImuMsg) (st : GlobalState) : GlobalState :=
  let acc := msgAcc msg
  let last := nextLast st
  AccumulateIMUShift
    { st with
      imuPointerLast := last
      imuTime := Function.update st.imuTime last msg.stamp
      imuRoll := Function.update st.imuRoll last msg.roll
      imuPitch := Function.update st.imuPitch last msg.pitch
      imuYaw := Function.update st.imuYaw last msg.yaw
      imuAccX := Function.update st.imuAccX last acc.1
      imuAccY := Function.update st.imuAccY last acc.2.1
      imuAccZ := Function.update st.imuAccZ last acc.2.2 }

/-- Feeding a list of IMU messages to the node, oldest first. -/
def runImu (msgs : List ImuMsg) (st : GlobalState) : GlobalState :=
  msgs.foldl (fun s m => imuHandler m s) st

/-- The world-frame acceleration `AccumulateIMUShift` computes for the slot
just written by `imuHandler` from message `msg` (the roll/pitch/yaw and the
gravity-removed acceleration are read back from that slot). -/
def msgWorldAcc (msg : ImuMsg) : ℝ × ℝ × ℝ :=
  accWorld msg.roll msg.pitch msg.yaw (msgAcc msg).1 (msgAcc msg).2.1 (msgAcc msg).2.2

/-- Displacement distortion of the current point relative to the sweep start,
`ShiftToStartIMU` (source lines 133-160). -/
def ShiftToStartIMU (pointTime : ℝ) (st : GlobalState) : GlobalState :=
  let sx := st.imuShiftXCur - st.imuShiftXStart - st.imuVeloXStart * pointTime
  let sy := st.imuShiftYCur - st.imuShiftYStart - st.imuVeloYStart * pointTime
  let sz := st.imuShiftZCur - st.imuShiftZStart - st.imuVeloZStart * pointTime
  let x1 := cos st.imuYawStart * sx - sin st.imuYawStart * sz
  let y1 := sy
  let z1 := sin st.imuYawStart * sx + cos st.imuYawStart * sz
  let x2 := x1
  let y2 := cos st.imuPitchStart * y1 + sin st.imuPitchStart * z1
  let z2 := -sin st.imuPitchStart * y1 + cos st.imuPitchStart * z1
  { st with
    imuShiftFromStartXCur := cos st.imuRollStart * x2 + sin st.imuRollStart * y2
    imuShiftFromStartYCur := -sin st.imuRollStart * x2 + cos st.imuRollStart * y2
    imuShiftFromStartZCur := z2 }

/-- Velocity distortion of the current point relative to the sweep start,
`VeloToStartIMU` (source lines 163-189). -/
def VeloToStartIMU (st : GlobalState) : GlobalState :=
  let vx := st.imuVeloXCur - st.imuVeloXStart
  let vy := st.imuVeloYCur - st.imuVeloYStart
  let vz := st.imuVeloZCur - st.imuVeloZStart
  let x1 := cos st.imuYawStart * vx - sin st.imuYawStart * vz
  let y1 := vy
  let z1 := sin st.imuYawStart * vx + cos st.imuYawStart * vz
  let x2 := x1
  let y2 := cos st.imuPitchStart * y1 + sin st.imuPitchStart * z1
  let z2 := -sin st.imuPitchStart * y1 + cos st.imuPitchStart * z1
  { st with
    imuVeloFromStartXCur := cos st.imuRollStart * x2 + sin st.imuRollStart * y2
    imuVeloFromStartYCur := -sin st.imuRollStart * x2 + cos st.imuRollStart * y2
    imuVeloFromStartZCur := z2 }

/-- De-skew of a point: rotate it to the world frame with the current Euler
angles, back to the start local frame with the start Euler angles, and add
the displacement residual, `TransformToStartIMU` (source lines 192-231). -/
def TransformToStartIMU (st : GlobalState) (p : PointT) : PointT :=
  let x1 := cos st.imuRollCur * p.x - sin st.imuRollCur * p.y
  let y1 := sin st.imuRollCur * p.x + cos st.imuRollCur * p.y
  let z1 := p.z
  let x2 := x1
  let y2 := cos st.imuPitchCur * y1 - sin st.imuPitchCur * z1
  let z2 := sin st.imuPitchCur * y1 + cos st.imuPitchCur * z1
  let x3 := cos st.imuYawCur * x2 + sin st.imuYawCur * z2
  let y3 := y2
  let z3 := -sin st.imuYawCur * x2 + cos st.imuYawCur * z2
  let x4 := cos st.imuYawStart * x3 - sin st.imuYawStart * z3
  let y4 := y3
  let z4 := sin st.imuYawStart * x3 + cos st.imuYawStart * z3
  let x5 := x4
  let y5 := cos st.imuPitchStart * y4 + sin st.imuPitchStart * z4
  let z5 := -sin st.imuPitchStart * y4 + cos st.imuPitchStart * z4
  { p with
    x := cos st.imuRollStart * x5 + sin st.imuRollStart * y5
      + st.imuShiftFromStartXCur
    y := -sin st.imuRollStart * x5 + cos st.imuRollStart * y5
      + st.imuShiftFromStartYCur
    z := z5 + st.imuShiftFromStartZCur }

/-- The `while (imuPointerFront != imuPointerLast)` search of source lines
376-381, advancing `imuPointerFront` cyclically.  The loop moves the cursor
modulo `imuQueLength` each step, so it terminates within `imuQueLength`
iterations whenever the cursors are in range; the fuel argument is
instantiated with `imuQueLength` by the caller. -/
def advanceFront (tp : ℝ) (last : ℤ) (time : ℤ → ℝ) : ℕ → ℤ → ℤ
  | 0, front => front
  | n + 1, front =>
    if front ≠ last then
      if tp < time front then front
      else advanceFront tp last time n ((front + 1) % imuQueLength)
    else front

/-- IMU state lookup/interpolation at point time `tp = timeScanCur +
pointTime` (source lines 376-421): advance `imuPointerFront`, then either
take the newest sample as-is or linearly interpolate between the two
samples bracketing `tp`, with yaw unwrapped across the ±π seam. -/
def computeImuCur (tp : ℝ) (st : GlobalState) : GlobalState :=
  let front := advanceFront tp st.imuPointerLast st.imuTime
    imuQueLength.toNat st.imuPointerFront
  if tp > st.imuTime front then
    { st with
      imuPointerFront := front
      imuRollCur := st.imuRoll front
      imuPitchCur := st.imuPitch front
      imuYawCur := st.imuYaw front
      imuVeloXCur := st.imuVeloX front
      imuVeloYCur := st.imuVeloY front
      imuVeloZCur := st.imuVeloZ front
      imuShiftXCur := st.imuShiftX front
      imuShiftYCur := st.imuShiftY front
      imuShiftZCur := st.imuShiftZ front }
  else
    let back := ringBack front
    let ratioFront := (tp - st.imuTime back) / (st.imuTime front - st.imuTime back)
    let ratioBack := (st.imuTime front - tp) / (st.imuTime front - st.imuTime back)
    let yawCur :=
      if st.imuYaw front - st.imuYaw back > π then
        st.imuYaw front * ratioFront + (st.imuYaw back + 2 * π) * ratioBack
      else if st.imuYaw front - st.imuYaw back < -π then
        st.imuYaw front * ratioFront + (st.imuYaw back - 2 * π) * ratioBack
      else
        st.imuYaw front * ratioFront + st.imuYaw back * ratioBack
    { st with
      imuPointerFront := front
      imuRollCur := st.imuRoll front * ratioFront + st.imuRoll back * ratioBack
      imuPitchCur := st.imuPitch front * ratioFront + st.imuPitch back * ratioBack
      imuYawCur := yawCur
      imuVeloXCur := st.imuVeloX front * ratioFront + st.imuVeloX back * ratioBack
      imuVeloYCur := st.imuVeloY front * ratioFront + st.imuVeloY back * ratioBack
      imuVeloZCur := st.imuVeloZ front * ratioFront + st.imuVeloZ back * ratioBack
      imuShiftXCur := st.imuShiftX front * ratioFront + st.imuShiftX back * ratioBack
      imuShiftYCur := st.imuShiftY front * ratioFront + st.imuShiftY back * ratioBack
      imuShiftZCur := st.imuShiftZ front * ratioFront + st.imuShiftZ back * ratioBack }

/-- Normalization of the end azimuth against the start azimuth
(source lines 310-314). -/
def adjustEndOri (startOri endOri : ℝ) : ℝ :=
  if endOri - startOri > 3 * π then endOri - 2 * π
  else if endOri - startOri < π then endOri + 2 * π
  else endOri

/-- Beam index of a raw sensor point after the axis remap: elevation angle
from the vertical-angle formula, rounding half away from zero by a C `int`
cast, and the scan-line assignment of source lines 322-336. -/
def scanIDOf (pin : P3) : ℤ :=
  let px := pin.y
  let py := pin.z
  let pz := pin.x
  let angle := arctan (py / Real.sqrt (px * px + pz * pz)) * 180 / π
  let roundedAngle := cTrunc (angle + (if angle < 0 then -(1 / 2 : ℝ) else 1 / 2))
  if 0 < roundedAngle then roundedAngle else roundedAngle + (N_SCANS - 1)

/-- Rotation-angle normalization of one point with the `halfPassed` latch
(source lines 345-365); returns the adjusted angle and the new latch. -/
def adjustOriFn (startOri endOri : ℝ) (halfPassed : Bool) (ori0 : ℝ) : ℝ × Bool :=
  if halfPassed = false then
    let ori1 :=
      if ori0 < startOri - π / 2 then ori0 + 2 * π
      else if ori0 > startOri + π * 3 / 2 then ori0 - 2 * π
      else ori0
    (ori1, if ori1 - startOri > π then true else false)
  else
    let ori1 := ori0 + 2 * π
    let ori2 :=
      if ori1 < endOri - π * 3 / 2 then ori1 + 2 * π
      else if ori1 > endOri + π / 2 then ori1 - 2 * π
      else ori1
    (ori2, true)

/-- Per-sweep loop state of `laserCloudHandler`: the shared globals, the
`halfPassed` latch, the running `count` of kept points and the per-beam
point containers `laserCloudScans`. -/
structure SweepAcc where
  st : GlobalState
  halfPassed : Bool
  count : ℤ
  scans : ℤ → List PointT

/-- Body of the per-point ingestion loop (source lines 320-442): axis remap,
beam-index rejection, azimuth/relative-time assignment, intensity encoding,
IMU interpolation, the first-point latch and the de-skew calls. -/
def processPoint (timeScanCur startOri endOri : ℝ) (i : ℕ) (pin : P3)
    (acc : SweepAcc) : SweepAcc :=
  let px := pin.y
  let py := pin.z
  let pz := pin.x
  let scanID := scanIDOf pin
  if N_SCANS - 1 < scanID ∨ scanID < 0 then
    { acc with count := acc.count - 1 }
  else
    let ori0 := -atan2 px pz
    let oh := adjustOriFn startOri endOri acc.halfPassed ori0
    let relTime := (oh.1 - startOri) / (endOri - startOri)
    let point : PointT :=
      { x := px, y := py, z := pz, intensity := (scanID : ℝ) + scanPeriod * relTime }
    if 0 ≤ acc.st.imuPointerLast then
      let pointTime := relTime * scanPeriod
      let st1 := computeImuCur (timeScanCur + pointTime) acc.st
      if i = 0 then
        let st2 :=
          { st1 with
            imuRollStart := st1.imuRollCur
            imuPitchStart := st1.imuPitchCur
            imuYawStart := st1.imuYawCur
            imuVeloXStart := st1.imuVeloXCur
            imuVeloYStart := st1.imuVeloYCur
            imuVeloZStart := st1.imuVeloZCur
            imuShiftXStart := st1.imuShiftXCur
            imuShiftYStart := st1.imuShiftYCur
            imuShiftZStart := st1.imuShiftZCur }
        { acc with
          st := st2
          halfPassed := oh.2
          scans := Function.update acc.scans scanID (acc.scans scanID ++ [point]) }
      else
        let st2 := ShiftToStartIMU pointTime st1
        let st3 := VeloToStartIMU st2
        let point2 := TransformToStartIMU st3 point
        { acc with
          st := st3
          halfPassed := oh.2
          scans := Function.update acc.scans scanID (acc.scans scanID ++ [point2]) }
    else
      { acc with
        halfPassed := oh.2
        scans := Function.update acc.scans scanID (acc.scans scanID ++ [point]) }

/-- The ingestion loop over all points of the (NaN-filtered) input cloud. -/
def ingestPoints (timeScanCur startOri endOri : ℝ) (pts : List P3)
    (acc : SweepAcc) : SweepAcc :=
  pts.enum.foldl (fun a ip => processPoint timeScanCur startOri endOri ip.1 ip.2 a) acc

/-- The loop accumulator `laserCloudHandler` starts from: the latch down,
`count = cloudSize`, all beam containers empty. -/
def initAcc (st : GlobalState) (pts : List P3) : SweepAcc :=
  { st := st, halfPassed := false, count := (pts.length : ℤ), scans := fun _ => [] }

/-- Bounds-checked `std::vector` element access: `none` models an
out-of-bounds `operator[]`. -/
def listGet? {α : Type} (l : List α) (i : ℤ) : Option α :=
  if 0 ≤ i then l.get? i.toNat else none

/-- The six consecutive `cloudNeighborPicked` assignments of source lines
524-529 (and 537-542): mark indices `i0 .. i0+5`. -/
def mark6 (picked : ℤ → ℤ) (i0 : ℤ) : ℤ → ℤ :=
  Function.update (Function.update (Function.update (Function.update
    (Function.update (Function.update picked i0 1) (i0 + 1) 1) (i0 + 2) 1)
    (i0 + 3) 1) (i0 + 4) 1) (i0 + 5) 1

set_option maxHeartbeats 1600000 in
/-- Curvature loop of source lines 452-490: per index, the 11-tap curvature,
scratch-array initialization and the beam-transition bookkeeping for
`scanStartInd`/`scanEndInd`.  Fuel-based loop; callers pass fuel exceeding
the iteration count, so fuel exhaustion (`none`) is unreachable. -/
def curvLoop (cloud : List PointT) (cloudSize : ℤ) :
    ℕ → ℤ → ℤ → GlobalState → (ℤ → ℤ) → (ℤ → ℤ) →
    Option (GlobalState × (ℤ → ℤ) × (ℤ → ℤ))
  | fuel, i, scanCount, st, ssi, sei =>
    if i < cloudSize - 5 then
      match fuel with
      | 0 => none
      | n + 1 => do
        let pm5 ← listGet? cloud (i - 5)
        let pm4 ← listGet? cloud (i - 4)
        let pm3 ← listGet? cloud (i - 3)
        let pm2 ← listGet? cloud (i - 2)
        let pm1 ← listGet? cloud (i - 1)
        let p0 ← listGet? cloud i
        let pp1 ← listGet? cloud (i + 1)
        let pp2 ← listGet? cloud (i + 2)
        let pp3 ← listGet? cloud (i + 3)
        let pp4 ← listGet? cloud (i + 4)
        let pp5 ← listGet? cloud (i + 5)
        let diffX := pm5.x + pm4.x + pm3.x + pm2.x + pm1.x - 10 * p0.x
          + pp1.x + pp2.x + pp3.x + pp4.x + pp5.x
        let diffY := pm5.y + pm4.y + pm3.y + pm2.y + pm1.y - 10 * p0.y
          + pp1.y + pp2.y + pp3.y + pp4.y + pp5.y
        let diffZ := pm5.z + pm4.z + pm3.z + pm2.z + pm1.z - 10 * p0.z
          + pp1.z + pp2.z + pp3.z + pp4.z + pp5.z
        let st1 :=
          { st with
            cloudCurvature := Function.update st.cloudCurvature i
              (diffX * diffX + diffY * diffY + diffZ * diffZ)
            cloudSortInd := Function.update st.cloudSortInd i i
            cloudNeighborPicked := Function.update st.cloudNeighborPicked i 0
            cloudLabel := Function.update st.cloudLabel i 0 }
        if cTrunc p0.intensity ≠ scanCount then
          let scanCount2 := cTrunc p0.intensity
          if 0 < scanCount2 ∧ scanCount2 < N_SCANS then
            curvLoop cloud cloudSize n (i + 1) scanCount2 st1
              (Function.update ssi scanCount2 (i + 5))
              (Function.update sei (scanCount2 - 1) (i - 5))
          else
            curvLoop cloud cloudSize n (i + 1) scanCount2 st1 ssi sei
        else
          curvLoop cloud cloudSize n (i + 1) scanCount st1 ssi sei
    else some (st, ssi, sei)

/-- Occlusion and parallel-surface/outlier filter, source lines 496-562. -/
def occlLoop (cloud : List PointT) (cloudSize : ℤ) :
    ℕ → ℤ → GlobalState → Option GlobalState
  | fuel, i, st =>
    if i < cloudSize - 6 then
      match fuel with
      | 0 => none
      | n + 1 => do
        let p0 ← listGet? cloud i
        let p1 ← listGet? cloud (i + 1)
        let pm ← listGet? cloud (i - 1)
        let diffX := p1.x - p0.x
        let diffY := p1.y - p0.y
        let diffZ := p1.z - p0.z
        let diff := diffX * diffX + diffY * diffY + diffZ * diffZ
        let st1 :=
          if diff > 1 / 10 then
            let depth1 := Real.sqrt (p0.x * p0.x + p0.y * p0.y + p0.z * p0.z)
            let depth2 := Real.sqrt (p1.x * p1.x + p1.y * p1.y + p1.z * p1.z)
            if depth1 > depth2 then
              let dX := p1.x - p0.x * depth2 / depth1
              let dY := p1.y - p0.y * depth2 / depth1
              let dZ := p1.z - p0.z * depth2 / depth1
              if Real.sqrt (dX * dX + dY * dY + dZ * dZ) / depth2 < 1 / 10 then
                { st with cloudNeighborPicked := mark6 st.cloudNeighborPicked (i - 5) }
              else st
            else
              let dX := p1.x * depth1 / depth2 - p0.x
              let dY := p1.y * depth1 / depth2 - p0.y
              let dZ := p1.z * depth1 / depth2 - p0.z
              if Real.sqrt (dX * dX + dY * dY + dZ * dZ) / depth1 < 1 / 10 then
                { st with cloudNeighborPicked := mark6 st.cloudNeighborPicked (i + 1) }
              else st
          else st
        let diffX2 := p0.x - pm.x
        let diffY2 := p0.y - pm.y
        let diffZ2 := p0.z - pm.z
        let diff2 := diffX2 * diffX2 + diffY2 * diffY2 + diffZ2 * diffZ2
        let dis := p0.x * p0.x + p0.y * p0.y + p0.z * p0.z
        let st2 :=
          if diff > 2 / 10000 * dis ∧ diff2 > 2 / 10000 * dis then
            { st1 with cloudNeighborPicked := Function.update st1.cloudNeighborPicked i 1 }
          else st1
        occlLoop cloud cloudSize n (i + 1) st2
    else some st

/-- Inner pass of the per-sector bubble sort (source lines 582-589):
`l` runs from `k` down to `sp + 1`, swapping adjacent sort indices whenever
the later one has smaller curvature. -/
def bubbleInner (curv : ℤ → ℝ) (sp : ℤ) : ℕ → ℤ → (ℤ → ℤ) → (ℤ → ℤ)
  | fuel, l, si =>
    if sp + 1 ≤ l then
      match fuel with
      | 0 => si
      | n + 1 =>
        if curv (si l) < curv (si (l - 1)) then
          bubbleInner curv sp n (l - 1)
            (Function.update (Function.update si (l - 1) (si l)) l (si (l - 1)))
        else bubbleInner curv sp n (l - 1) si
    else si

/-- Outer pass of the per-sector bubble sort (source lines 581-590). -/
def bubbleOuter (curv : ℤ → ℝ) (sp ep : ℤ) : ℕ → ℤ → (ℤ → ℤ) → (ℤ → ℤ)
  | fuel, k, si =>
    if k ≤ ep then
      match fuel with
      | 0 => si
      | n + 1 => bubbleOuter curv sp ep n (k + 1) (bubbleInner curv sp (k - sp).toNat k si)
    else si

/-- Forward neighbor spread mask (source lines 616-628): walk `l = 1..5`,
stop at the first squared gap above 0.05, else mark `picked[ind+l]`. -/
def spreadFwd (cloud : List PointT) (ind : ℤ) : ℕ → ℤ → (ℤ → ℤ) → Option (ℤ → ℤ)
  | fuel, l, picked =>
    if l ≤ 5 then
      match fuel with
      | 0 => none
      | n + 1 => do
        let pa ← listGet? cloud (ind + l)
        let pb ← listGet? cloud (ind + l - 1)
        let diffX := pa.x - pb.x
        let diffY := pa.y - pb.y
        let diffZ := pa.z - pb.z
        if diffX * diffX + diffY * diffY + diffZ * diffZ > 1 / 20 then some picked
        else spreadFwd cloud ind n (l + 1) (Function.update picked (ind + l) 1)
    else some picked

/-- Backward neighbor spread mask (source lines 629-641): walk `l = -1..-5`. -/
def spreadBwd (cloud : List PointT) (ind : ℤ) : ℕ → ℤ → (ℤ → ℤ) → Option (ℤ → ℤ)
  | fuel, l, picked =>
    if -5 ≤ l then
      match fuel with
      | 0 => none
      | n + 1 => do
        let pa ← listGet? cloud (ind + l)
        let pb ← listGet? cloud (ind + l + 1)
        let diffX := pa.x - pb.x
        let diffY := pa.y - pb.y
        let diffZ := pa.z - pb.z
        if diffX * diffX + diffY * diffY + diffZ * diffZ > 1 / 20 then some picked
        else spreadBwd cloud ind n (l - 1) (Function.update picked (ind + l) 1)
    else some picked

/-- Per-sector accumulation: the shared globals plus the four feature point
containers being built during a sweep. -/
structure SelState where
  st : GlobalState
  cornerPointsSharp : List PointT
  cornerPointsLessSharp : List PointT
  surfPointsFlat : List PointT
  lessFlatScan : List PointT

/-- One iteration of the corner-selection loop (the body of source lines
594-643 at position `k`): if the point at sort position `k` is unmasked with
curvature above 0.1, it is picked — the first 2 picks of a sector are sharp
(label 2, pushed to both corner clouds), picks 3-20 less sharp (label 1),
beyond 20 the loop breaks with the state unchanged; after a pick the flag is
set and the spread masks run.  Returns the new state, the new pick counter
and the break flag. -/
def cornerIter (cloud : List PointT) (k lpn : ℤ) (s : SelState) :
    Option (SelState × ℤ × Bool) :=
  let ind := s.st.cloudSortInd k
  if s.st.cloudNeighborPicked ind = 0 ∧ s.st.cloudCurvature ind > 1 / 10 then
    if 20 < lpn + 1 then some (s, lpn + 1, true)
    else do
      let p ← listGet? cloud ind
      let s1 :=
        if lpn + 1 ≤ 2 then
          { s with
            st := { s.st with cloudLabel := Function.update s.st.cloudLabel ind 2 }
            cornerPointsSharp := s.cornerPointsSharp ++ [p]
            cornerPointsLessSharp := s.cornerPointsLessSharp ++ [p] }
        else
          { s with
            st := { s.st with cloudLabel := Function.update s.st.cloudLabel ind 1 }
            cornerPointsLessSharp := s.cornerPointsLessSharp ++ [p] }
      let picked1 := Function.update s1.st.cloudNeighborPicked ind 1
      let picked2 ← spreadFwd cloud ind 6 1 picked1
      let picked3 ← spreadBwd cloud ind 6 (-1) picked2
      some ({ s1 with st := { s1.st with cloudNeighborPicked := picked3 } }, lpn + 1, false)
  else some (s, lpn, false)

/-- Corner selection over one sector (source lines 593-643): scan from `ep`
down to `sp` in descending curvature order, iterating `cornerIter`. -/
def cornerLoop (cloud : List PointT) (sp : ℤ) : ℕ → ℤ → ℤ → SelState → Option SelState
  | fuel, k, largestPickedNum, s =>
    if sp ≤ k then
      match fuel with
      | 0 => none
      | n + 1 => do
        let r ← cornerIter cloud k largestPickedNum s
        if r.2.2 then some r.1 else cornerLoop cloud sp n (k - 1) r.2.1 r.1
    else some s

/-- One iteration of the flat-selection loop (the body of source lines
647-690 at position `k`): if the point at sort position `k` is unmasked with
curvature below 0.1, it is labelled -1 and pushed to `surfPointsFlat`; when
this is the 4th pick of the sector the loop breaks immediately — BEFORE the
`picked` flag is set — otherwise the flag is set and the spread masks run. -/
def flatIter (cloud : List PointT) (k spn : ℤ) (s : SelState) :
    Option (SelState × ℤ × Bool) :=
  let ind := s.st.cloudSortInd k
  if s.st.cloudNeighborPicked ind = 0 ∧ s.st.cloudCurvature ind < 1 / 10 then do
    let p ← listGet? cloud ind
    let s1 :=
      { s with
        st := { s.st with cloudLabel := Function.update s.st.cloudLabel ind (-1) }
        surfPointsFlat := s.surfPointsFlat ++ [p] }
    if 4 ≤ spn + 1 then some (s1, spn + 1, true)
    else do
      let picked1 := Function.update s1.st.cloudNeighborPicked ind 1
      let picked2 ← spreadFwd cloud ind 6 1 picked1
      let picked3 ← spreadBwd cloud ind 6 (-1) picked2
      some ({ s1 with st := { s1.st with cloudNeighborPicked := picked3 } }, spn + 1, false)
  else some (s, spn, false)

/-- Flat selection over one sector (source lines 646-690): scan from `sp` up
to `ep` in ascending curvature order, iterating `flatIter`. -/
def flatLoop (cloud : List PointT) (ep : ℤ) : ℕ → ℤ → ℤ → SelState → Option SelState
  | fuel, k, smallestPickedNum, s =>
    if k ≤ ep then
      match fuel with
      | 0 => none
      | n + 1 => do
        let r ← flatIter cloud k smallestPickedNum s
        if r.2.2 then some r.1 else flatLoop cloud ep n (k + 1) r.2.1 r.1
    else some s

/-- Less-flat collection over one sector (source lines 693-697): every index
with a non-positive label joins the per-beam less-flat cloud. -/
def lessFlatLoop (cloud : List PointT) (ep : ℤ) : ℕ → ℤ → SelState → Option SelState
  | fuel, k, s =>
    if k ≤ ep then
      match fuel with
      | 0 => none
      | n + 1 =>
        if s.st.cloudLabel k ≤ 0 then do
          let p ← listGet? cloud k
          lessFlatLoop cloud ep n (k + 1) { s with lessFlatScan := s.lessFlatScan ++ [p] }
        else lessFlatLoop cloud ep n (k + 1) s
    else some s

/-- One sixth-of-beam sector (source lines 574-697): compute the sector
bounds with C integer division, bubble-sort the sort indices by curvature,
then corner selection, flat selection and less-flat collection. -/
def sectorRun (cloud : List PointT) (ssi sei : ℤ → ℤ) (i j : ℤ)
    (s : SelState) : Option SelState := do
  let sp := Int.tdiv (ssi i * (6 - j) + sei i * j) 6
  let ep := Int.tdiv (ssi i * (5 - j) + sei i * (j + 1)) 6 - 1
  let sorted := bubbleOuter s.st.cloudCurvature sp ep (ep - sp).toNat (sp + 1) s.st.cloudSortInd
  let s1 := { s with st := { s.st with cloudSortInd := sorted } }
  let s2 ← cornerLoop cloud sp ((ep + 1 - sp).toNat) ep 0 s1
  let s3 ← flatLoop cloud ep ((ep + 1 - sp).toNat) sp 0 s2
  lessFlatLoop cloud ep ((ep + 1 - sp).toNat) sp s3

/-- The six sectors of one beam, in order. -/
def sectorFold (cloud : List PointT) (ssi sei : ℤ → ℤ) (i : ℤ) :
    List ℤ → SelState → Option SelState
  | [], s => some s
  | j :: rest, s => do
    let s1 ← sectorRun cloud ssi sei i j s
    sectorFold cloud ssi sei i rest s1

/-- Per-beam feature extraction (source lines 571-709): fresh per-beam
less-flat cloud, the six sectors, then the external voxel-grid downsample of
the beam's less-flat cloud appended to the global less-flat cloud. -/
def beamRun (downsample : List PointT → List PointT) (cloud : List PointT)
    (ssi sei : ℤ → ℤ) : List ℤ → SelState → List PointT → Option (SelState × List PointT)
  | [], s, lessFlat => some (s, lessFlat)
  | i :: rest, s, lessFlat => do
    let s6 ← sectorFold cloud ssi sei i [0, 1, 2, 3, 4, 5] { s with lessFlatScan := [] }
    beamRun downsample cloud ssi sei rest s6 (lessFlat ++ downsample s6.lessFlatScan)

/-- The five published clouds of one sweep plus the 4-point IMU summary. -/
structure SweepOut where
  laserCloud : List PointT
  cornerPointsSharp : List PointT
  cornerPointsLessSharp : List PointT
  surfPointsFlat : List PointT
  surfPointsLessFlat : List PointT
  imuTrans : List P3

/-- The sweep callback `laserCloudHandler` (source lines 278-769), after the
startup gate, on the NaN-filtered input cloud: azimuth framing, per-point
ingestion, beam concatenation, curvature, occlusion/outlier filtering,
per-beam per-sector feature selection and emission.  `none` models an
out-of-bounds vector access. -/
def laserCloudHandler (downsample : List PointT → List PointT)
    (timeScanCur : ℝ) (cloudIn : List P3) (st0 : GlobalState) :
    Option (SweepOut × GlobalState) := do
  let cloudSizeIn : ℤ := (cloudIn.length : ℤ)
  let p0 ← listGet? cloudIn 0
  let pN ← listGet? cloudIn (cloudSizeIn - 1)
  let startOri := -atan2 p0.y p0.x
  let endOri := adjustEndOri startOri (-atan2 pN.y pN.x + 2 * π)
  let acc := ingestPoints timeScanCur startOri endOri cloudIn (initAcc st0 cloudIn)
  let cloudSize := acc.count
  let laserCloud := (List.range 16).foldl (fun c i => c ++ acc.scans (i : ℤ)) []
  let cse ← curvLoop laserCloud cloudSize (cloudSize.toNat + 1) 5 (-1) acc.st
    (fun _ => 0) (fun _ => 0)
  let ssi := Function.update cse.2.1 0 5
  let sei := Function.update cse.2.2 (N_SCANS - 1) (cloudSize - 5)
  let st2 ← occlLoop laserCloud cloudSize (cloudSize.toNat + 1) 5 cse.1
  let sel0 : SelState :=
    { st := st2, cornerPointsSharp := [], cornerPointsLessSharp := []
      surfPointsFlat := [], lessFlatScan := [] }
  let br ← beamRun downsample laserCloud ssi sei
    ((List.range 16).map Int.ofNat) sel0 []
  let stF := br.1.st
  some
    ({ laserCloud := laserCloud
       cornerPointsSharp := br.1.cornerPointsSharp
       cornerPointsLessSharp := br.1.cornerPointsLessSharp
       surfPointsFlat := br.1.surfPointsFlat
       surfPointsLessFlat := br.2
       imuTrans :=
        [⟨stF.imuPitchStart, stF.imuYawStart, stF.imuRollStart⟩,
         ⟨stF.imuPitchCur, stF.imuYawCur, stF.imuRollCur⟩,
         ⟨stF.imuShiftFromStartXCur, stF.imuShiftFromStartYCur, stF.imuShiftFromStartZCur⟩,
         ⟨stF.imuVeloFromStartXCur, stF.imuVeloFromStartYCur, stF.imuVeloFromStartZCur⟩] },
     stF)

/-- A concrete IMU message used to exercise the frame theorem: its stamp, 1,
is far enough from the zero-initialized previous slot time that the
integration branch is skipped. -/
def c10msg : ImuMsg := ⟨1, 0, 0, 0, 0, 0, 0⟩

/-- A first IMU sample at time 1/20: the gap to the zero-initialized slot
199 is below `scanPeriod`, so it is integrated, storing the nonzero velocity
2 · (1/20) into ring slot 0 (its world-frame y acceleration is 2). -/
def c1msg0 : ImuMsg := ⟨1 / 20, 0, 0, 0, 0, 0, 981 / 100 + 2⟩

/-- The k-th follow-up sample: spaced 1/5 ≥ `scanPeriod` after its
predecessor, so its integration step is skipped. -/
def c1f (k : ℕ) : ImuMsg := ⟨1 / 20 + ((k : ℝ) + 1) * (1 / 5), 0, 0, 0, 0, 0, 0⟩

/-- The first sample above followed by two hundred further samples spaced
1/5 ≥ `scanPeriod` apart, each skipping integration; the 201st sample reuses
ring slot 0, which still holds the old nonzero velocity. -/
def c1msgs : List ImuMsg := c1msg0 :: (List.range 200).map c1f

/-- Synthetic constant-acceleration IMU stream for the integration
consistency property: identity orientation and a sensor-frame acceleration
chosen so that the world-frame acceleration is `(aX, aY, aZ)`. -/
def c8msg (aX aY aZ t0 dt : ℝ) (k : ℕ) : ImuMsg :=
  ⟨t0 + (k : ℝ) * dt, 0, 0, 0, aZ, aX, aY + 981 / 100⟩

/-- A sensor point at 45° elevation: its beam index 45 is outside
`[0, N_SCANS-1]`, so ingestion rejects it. -/
def c2p0 : P3 := ⟨1, 0, 1⟩

/-- A sensor point straight ahead at zero elevation: mapped to beam 15 and
kept. -/
def c2p1 : P3 := ⟨1, 0, 0⟩

/-- A state whose IMU ring holds one sample (slot 0) with roll 1 at time 5:
nonempty ring, and an interpolated roll distinguishable from the
zero-initialized start latch. -/
def c2st : GlobalState :=
  { initialState with
    imuPointerLast := 0
    imuRoll := fun _ => 1
    imuTime := fun _ => 5 }

/-- The intensity-decoding property of one stored point: its beam index is
in range, rounding the composite intensity to the nearest integer recovers
the beam index, and the relative-time part lies within [-1/2, 2] scan
periods. -/
def IntensityOk (id : ℤ) (pt : PointT) : Prop :=
  0 ≤ id ∧ id ≤ N_SCANS - 1 ∧ round pt.intensity = id ∧
  -(1 / 2) ≤ (pt.intensity - (id : ℝ)) / scanPeriod ∧
  (pt.intensity - (id : ℝ)) / scanPeriod ≤ 2

/-- A sensor point straight ahead: beam 15, azimuth 0 (the sweep start). -/
def c6p0 : P3 := ⟨1, 0, 0⟩

/-- A sensor point at azimuth -π/4 relative to the start, i.e. slightly
BEHIND the start azimuth of the sweep: its relative time is negative. -/
def c6p1 : P3 := ⟨1, 1, 0⟩

/-- A collinear probe point at abscissa `n` for the selection loops: the
squared gap between consecutive points is 1 > 0.05, so the neighbor spread
masks stop immediately. -/
def c3pt (n : ℕ) : PointT := ⟨(n : ℝ), 0, 0, 0⟩

/-- Sixteen well-separated collinear points. -/
def c3cloud : List PointT :=
  [c3pt 0, c3pt 1, c3pt 2, c3pt 3, c3pt 4, c3pt 5, c3pt 6, c3pt 7,
   c3pt 8, c3pt 9, c3pt 10, c3pt 11, c3pt 12, c3pt 13, c3pt 14, c3pt 15]

/-- Selection state for the flat-pick counterexample: identity sort indices,
zero curvature everywhere (so every point counts as flat), empty feature
containers. -/
def c3sel : SelState :=
  { st := { initialState with cloudSortInd := fun j => j }
    cornerPointsSharp := []
    cornerPointsLessSharp := []
    surfPointsFlat := []
    lessFlatScan := [] }

/-! ### Helper lemmas about the IMU callback -/

theorem nextLast_nonneg (st : GlobalState) : 0 ≤ nextLast st := by
  unfold nextLast imuQueLength
  omega

theorem nextLast_lt (st : GlobalState) : nextLast st < imuQueLength := by
  unfold nextLast imuQueLength
  omega

theorem ringBack_ne (i : ℤ) : ringBack i ≠ i := by
  unfold ringBack imuQueLength
  omega

theorem runImu_nil (st : GlobalState) : runImu [] st = st := rfl

theorem runImu_cons (m : ImuMsg) (ms : List ImuMsg) (st : GlobalState) :
    runImu (m :: ms) st = runImu ms (imuHandler m st) := rfl

theorem imuHandler_last (msg : ImuMsg) (st : GlobalState) :
    (imuHandler msg st).imuPointerLast = nextLast st := by
  unfold imuHandler AccumulateIMUShift
  dsimp only
  split <;> rfl

theorem imuHandler_sweep_frame (msg : ImuMsg) (st : GlobalState) :
    (imuHandler msg st).imuPointerFront = st.imuPointerFront ∧
    (imuHandler msg st).imuRollStart = st.imuRollStart ∧
    (imuHandler msg st).imuPitchStart = st.imuPitchStart ∧
    (imuHandler msg st).imuYawStart = st.imuYawStart ∧
    (imuHandler msg st).imuRollCur = st.imuRollCur ∧
    (imuHandler msg st).imuPitchCur = st.imuPitchCur ∧
    (imuHandler msg st).imuYawCur = st.imuYawCur ∧
    (imuHandler msg st).imuVeloXStart = st.imuVeloXStart ∧
    (imuHandler msg st).imuVeloYStart = st.imuVeloYStart ∧
    (imuHandler msg st).imuVeloZStart = st.imuVeloZStart ∧
    (imuHandler msg st).imuShiftXStart = st.imuShiftXStart ∧
    (imuHandler msg st).imuShiftYStart = st.imuShiftYStart ∧
    (imuHandler msg st).imuShiftZStart = st.imuShiftZStart ∧
    (imuHandler msg st).imuVeloXCur = st.imuVeloXCur ∧
    (imuHandler msg st).imuVeloYCur = st.imuVeloYCur ∧
    (imuHandler msg st).imuVeloZCur = st.imuVeloZCur ∧
    (imuHandler msg st).imuShiftXCur = st.imuShiftXCur ∧
    (imuHandler msg st).imuShiftYCur = st.imuShiftYCur ∧
    (imuHandler msg st).imuShiftZCur = st.imuShiftZCur ∧
    (imuHandler msg st).imuShiftFromStartXCur = st.imuShiftFromStartXCur ∧
    (imuHandler msg st).imuShiftFromStartYCur = st.imuShiftFromStartYCur ∧
    (imuHandler msg st).imuShiftFromStartZCur = st.imuShiftFromStartZCur ∧
    (imuHandler msg st).imuVeloFromStartXCur = st.imuVeloFromStartXCur ∧
    (imuHandler msg st).imuVeloFromStartYCur = st.imuVeloFromStartYCur ∧
    (imuHandler msg st).imuVeloFromStartZCur = st.imuVeloFromStartZCur ∧
    (imuHandler msg st).cloudCurvature = st.cloudCurvature ∧
    (imuHandler msg st).cloudSortInd = st.cloudSortInd ∧
    (imuHandler msg st).cloudNeighborPicked = st.cloudNeighborPicked ∧
    (imuHandler msg st).cloudLabel = st.cloudLabel := by
  unfold imuHandler AccumulateIMUShift
  dsimp only
  split <;> simp

theorem imuHandler_ring_frame (msg : ImuMsg) (st : GlobalState) (j : ℤ)
    (hj : j ≠ nextLast st) :
    (imuHandler msg st).imuTime j = st.imuTime j ∧
    (imuHandler msg st).imuRoll j = st.imuRoll j ∧
    (imuHandler msg st).imuPitch j = st.imuPitch j ∧
    (imuHandler msg st).imuYaw j = st.imuYaw j ∧
    (imuHandler msg st).imuAccX j = st.imuAccX j ∧
    (imuHandler msg st).imuAccY j = st.imuAccY j ∧
    (imuHandler msg st).imuAccZ j = st.imuAccZ j ∧
    (imuHandler msg st).imuVeloX j = st.imuVeloX j ∧
    (imuHandler msg st).imuVeloY j = st.imuVeloY j ∧
    (imuHandler msg st).imuVeloZ j = st.imuVeloZ j ∧
    (imuHandler msg st).imuShiftX j = st.imuShiftX j ∧
    (imuHandler msg st).imuShiftY j = st.imuShiftY j ∧
    (imuHandler msg st).imuShiftZ j = st.imuShiftZ j := by
  unfold imuHandler AccumulateIMUShift
  dsimp only
  split <;> simp [Function.update, hj]

theorem imuHandler_write (msg : ImuMsg) (st : GlobalState) :
    (imuHandler msg st).imuTime (nextLast st) = msg.stamp ∧
    (imuHandler msg st).imuRoll (nextLast st) = msg.roll ∧
    (imuHandler msg st).imuPitch (nextLast st) = msg.pitch ∧
    (imuHandler msg st).imuYaw (nextLast st) = msg.yaw ∧
    (imuHandler msg st).imuAccX (nextLast st) = (msgAcc msg).1 ∧
    (imuHandler msg st).imuAccY (nextLast st) = (msgAcc msg).2.1 ∧
    (imuHandler msg st).imuAccZ (nextLast st) = (msgAcc msg).2.2 := by
  unfold imuHandler AccumulateIMUShift
  dsimp only
  split <;> simp

theorem imuHandler_skip (msg : ImuMsg) (st : GlobalState)
    (h : ¬ msg.stamp - st.imuTime (ringBack (nextLast st)) < scanPeriod) :
    (imuHandler msg st).imuVeloX = st.imuVeloX ∧
    (imuHandler msg st).imuVeloY = st.imuVeloY ∧
    (imuHandler msg st).imuVeloZ = st.imuVeloZ ∧
    (imuHandler msg st).imuShiftX = st.imuShiftX ∧
    (imuHandler msg st).imuShiftY = st.imuShiftY ∧
    (imuHandler msg st).imuShiftZ = st.imuShiftZ := by
  have hBL : ringBack (nextLast st) ≠ nextLast st := ringBack_ne _
  unfold imuHandler AccumulateIMUShift
  dsimp only
  rw [Function.update_same, Function.update_noteq hBL, if_neg h]
  exact ⟨rfl, rfl, rfl, rfl, rfl, rfl⟩

theorem imuHandler_integrate (msg : ImuMsg) (st : GlobalState)
    (h : msg.stamp - st.imuTime (ringBack (nextLast st)) < scanPeriod) :
    (imuHandler msg st).imuVeloX =
      Function.update st.imuVeloX (nextLast st)
        (st.imuVeloX (ringBack (nextLast st)) + (msgWorldAcc msg).1 *
          (msg.stamp - st.imuTime (ringBack (nextLast st)))) ∧
    (imuHandler msg st).imuVeloY =
      Function.update st.imuVeloY (nextLast st)
        (st.imuVeloY (ringBack (nextLast st)) + (msgWorldAcc msg).2.1 *
          (msg.stamp - st.imuTime (ringBack (nextLast st)))) ∧
    (imuHandler msg st).imuVeloZ =
      Function.update st.imuVeloZ (nextLast st)
        (st.imuVeloZ (ringBack (nextLast st)) + (msgWorldAcc msg).2.2 *
          (msg.stamp - st.imuTime (ringBack (nextLast st)))) ∧
    (imuHandler msg st).imuShiftX =
      Function.update st.imuShiftX (nextLast st)
        (st.imuShiftX (ringBack (nextLast st)) +
          st.imuVeloX (ringBack (nextLast st)) *
            (msg.stamp - st.imuTime (ringBack (nextLast st))) +
          (msgWorldAcc msg).1 * (msg.stamp - st.imuTime (ringBack (nextLast st))) *
            (msg.stamp - st.imuTime (ringBack (nextLast st))) / 2) ∧
    (imuHandler msg st).imuShiftY =
      Function.update st.imuShiftY (nextLast st)
        (st.imuShiftY (ringBack (nextLast st)) +
          st.imuVeloY (ringBack (nextLast st)) *
            (msg.stamp - st.imuTime (ringBack (nextLast st))) +
          (msgWorldAcc msg).2.1 * (msg.stamp - st.imuTime (ringBack (nextLast st))) *
            (msg.stamp - st.imuTime (ringBack (nextLast st))) / 2) ∧
    (imuHandler msg st).imuShiftZ =
      Function.update st.imuShiftZ (nextLast st)
        (st.imuShiftZ (ringBack (nextLast st)) +
          st.imuVeloZ (ringBack (nextLast st)) *
            (msg.stamp - st.imuTime (ringBack (nextLast st))) +
          (msgWorldAcc msg).2.2 * (msg.stamp - st.imuTime (ringBack (nextLast st))) *
            (msg.stamp - st.imuTime (ringBack (nextLast st))) / 2) := by
  have hBL : ringBack (nextLast st) ≠ nextLast st := ringBack_ne _
  unfold imuHandler AccumulateIMUShift
  dsimp only
  rw [Function.update_same, Function.update_noteq hBL, if_pos h]
  simp [msgWorldAcc, Function.update_same, Function.update_noteq hBL]

/-! ### C10: frame conditions of the IMU callback -/

/-- C10: each invocation of the IMU callback advances `imuPointerLast` by
exactly one modulo 200 and writes only that single ring slot; every other
ring slot, the `imuPointerFront` cursor, the Start/Cur latches and the
per-sweep scratch arrays are left unchanged, and when the integration branch
is skipped even the velocity and shift arrays are left untouched. -/
theorem C10_imuHandler_frame (msg : ImuMsg) (st : GlobalState) :
    (imuHandler msg st).imuPointerLast = (st.imuPointerLast + 1) % imuQueLength ∧
    (∀ j, j ≠ (st.imuPointerLast + 1) % imuQueLength →
      (imuHandler msg st).imuTime j = st.imuTime j ∧
      (imuHandler msg st).imuRoll j = st.imuRoll j ∧
      (imuHandler msg st).imuPitch j = st.imuPitch j ∧
      (imuHandler msg st).imuYaw j = st.imuYaw j ∧
      (imuHandler msg st).imuAccX j = st.imuAccX j ∧
      (imuHandler msg st).imuAccY j = st.imuAccY j ∧
      (imuHandler msg st).imuAccZ j = st.imuAccZ j ∧
      (imuHandler msg st).imuVeloX j = st.imuVeloX j ∧
      (imuHandler msg st).imuVeloY j = st.imuVeloY j ∧
      (imuHandler msg st).imuVeloZ j = st.imuVeloZ j ∧
      (imuHandler msg st).imuShiftX j = st.imuShiftX j ∧
      (imuHandler msg st).imuShiftY j = st.imuShiftY j ∧
      (imuHandler msg st).imuShiftZ j = st.imuShiftZ j) ∧
    (imuHandler msg st).imuPointerFront = st.imuPointerFront ∧
    (imuHandler msg st).imuRollStart = st.imuRollStart ∧
    (imuHandler msg st).imuPitchStart = st.imuPitchStart ∧
    (imuHandler msg st).imuYawStart = st.imuYawStart ∧
    (imuHandler msg st).imuVeloXStart = st.imuVeloXStart ∧
    (imuHandler msg st).imuVeloYStart = st.imuVeloYStart ∧
    (imuHandler msg st).imuVeloZStart = st.imuVeloZStart ∧
    (imuHandler msg st).imuShiftXStart = st.imuShiftXStart ∧
    (imuHandler msg st).imuShiftYStart = st.imuShiftYStart ∧
    (imuHandler msg st).imuShiftZStart = st.imuShiftZStart ∧
    (imuHandler msg st).imuRollCur = st.imuRollCur ∧
    (imuHandler msg st).imuPitchCur = st.imuPitchCur ∧
    (imuHandler msg st).imuYawCur = st.imuYawCur ∧
    (imuHandler msg st).imuVeloXCur = st.imuVeloXCur ∧
    (imuHandler msg st).imuVeloYCur = st.imuVeloYCur ∧
    (imuHandler msg st).imuVeloZCur = st.imuVeloZCur ∧
    (imuHandler msg st).imuShiftXCur = st.imuShiftXCur ∧
    (imuHandler msg st).imuShiftYCur = st.imuShiftYCur ∧
    (imuHandler msg st).imuShiftZCur = st.imuShiftZCur ∧
    (imuHandler msg st).imuShiftFromStartXCur = st.imuShiftFromStartXCur ∧
    (imuHandler msg st).imuShiftFromStartYCur = st.imuShiftFromStartYCur ∧
    (imuHandler msg st).imuShiftFromStartZCur = st.imuShiftFromStartZCur ∧
    (imuHandler msg st).imuVeloFromStartXCur = st.imuVeloFromStartXCur ∧
    (imuHandler msg st).imuVeloFromStartYCur = st.imuVeloFromStartYCur ∧
    (imuHandler msg st).imuVeloFromStartZCur = st.imuVeloFromStartZCur ∧
    (imuHandler msg st).cloudCurvature = st.cloudCurvature ∧
    (imuHandler msg st).cloudSortInd = st.cloudSortInd ∧
    (imuHandler msg st).cloudNeighborPicked = st.cloudNeighborPicked ∧
    (imuHandler msg st).cloudLabel = st.cloudLabel ∧
    (¬ msg.stamp - st.imuTime (ringBack ((st.imuPointerLast + 1) % imuQueLength)) < scanPeriod →
      (imuHandler msg st).imuVeloX = st.imuVeloX ∧
      (imuHandler msg st).imuVeloY = st.imuVeloY ∧
      (imuHandler msg st).imuVeloZ = st.imuVeloZ ∧
      (imuHandler msg st).imuShiftX = st.imuShiftX ∧
      (imuHandler msg st).imuShiftY = st.imuShiftY ∧
      (imuHandler msg st).imuShiftZ = st.imuShiftZ) := by
  obtain ⟨f1, f2, f3, f4, f5, f6, f7, f8, f9, f10, f11, f12, f13, f14, f15, f16,
    f17, f18, f19, f20, f21, f22, f23, f24, f25, f26, f27, f28, f29⟩ :=
    imuHandler_sweep_frame msg st
  exact ⟨imuHandler_last msg st, fun j hj => imuHandler_ring_frame msg st j hj,
    f1, f2, f3, f4, f8, f9, f10, f11, f12, f13, f5, f6, f7, f14, f15, f16, f17,
    f18, f19, f20, f21, f22, f23, f24, f25, f26, f27, f28, f29,
    fun h => imuHandler_skip msg st h⟩

/-- Witness for C10 at a concrete message and the initial state: the cursor
advances from -1 to 0, ring slot 5 is untouched, and since the message's
time gap (1 second) is at least `scanPeriod` the velocity array is untouched
as well. -/
theorem C10_witness :
    (imuHandler c10msg initialState).imuPointerLast =
      (initialState.imuPointerLast + 1) % imuQueLength ∧
    (imuHandler c10msg initialState).imuTime 5 = initialState.imuTime 5 ∧
    (imuHandler c10msg initialState).imuVeloY = initialState.imuVeloY := by
  refine ⟨(C10_imuHandler_frame c10msg initialState).1, ?_, ?_⟩
  · exact ((C10_imuHandler_frame c10msg initialState).2.1 5 (by decide)).1
  · refine ((C10_imuHandler_frame c10msg initialState).2.2.2.2.2.2.2.2.2.2.2.2.2.2.2.2.2.2.2.2.2.2.2.2.2.2.2.2.2.2.2
      ?_).2.1
    show ¬ (1 : ℝ) - initialState.imuTime _ < scanPeriod
    norm_num [initialState, scanPeriod]

/-! ### C1: the integration-skip branch -/

theorem runImu_snoc (l : List ImuMsg) (m : ImuMsg) (st : GlobalState) :
    runImu (l ++ [m]) st = imuHandler m (runImu l st) := by
  simp [runImu, List.foldl_append]

theorem msgWorldAcc_zero_rpy (msg : ImuMsg) (hr : msg.roll = 0)
    (hp : msg.pitch = 0) (hy : msg.yaw = 0) :
    msgWorldAcc msg = (msg.linAccY, msg.linAccZ - 981 / 100, msg.linAccX) := by
  simp [msgWorldAcc, accWorld, msgAcc, hr, hp, hy]

/-- Running at most 200 messages from process start: the cursor sits at
`length - 1` and every not-yet-visited slot still holds the zero-initialized
velocity and shift. -/
theorem runImu_unvisited (l : List ImuMsg) (hl : l.length ≤ 200) :
    (runImu l initialState).imuPointerLast = (l.length : ℤ) - 1 ∧
    ∀ j : ℤ, (l.length : ℤ) ≤ j → j < 200 →
      (runImu l initialState).imuVeloX j = 0 ∧
      (runImu l initialState).imuVeloY j = 0 ∧
      (runImu l initialState).imuVeloZ j = 0 ∧
      (runImu l initialState).imuShiftX j = 0 ∧
      (runImu l initialState).imuShiftY j = 0 ∧
      (runImu l initialState).imuShiftZ j = 0 := by
  induction l using List.reverseRecOn with
  | nil =>
    refine ⟨by simp [runImu, initialState], fun j _ _ => ?_⟩
    simp [runImu, initialState]
  | append_singleton l m ih =>
    have hlen : l.length ≤ 200 := by
      simp only [List.length_append, List.length_singleton] at hl
      omega
    obtain ⟨ihLast, ihZero⟩ := ih hlen
    have hnl : nextLast (runImu l initialState) = (l.length : ℤ) := by
      unfold nextLast imuQueLength
      rw [ihLast]
      have : (l.length : ℤ) ≤ 200 := by exact_mod_cast hlen
      have : (l.length : ℤ) < 200 := by
        simp only [List.length_append, List.length_singleton] at hl
        exact_mod_cast (by omega : l.length < 200)
      omega
    rw [runImu_snoc]
    constructor
    · rw [imuHandler_last, hnl]
      simp only [List.length_append, List.length_singleton]
      push_cast
      ring
    · intro j hj1 hj2
      simp only [List.length_append, List.length_singleton] at hj1
      push_cast at hj1
      have hjne : j ≠ nextLast (runImu l initialState) := by rw [hnl]; omega
      obtain ⟨-, -, -, -, -, -, -, v1, v2, v3, s1, s2, s3⟩ :=
        imuHandler_ring_frame m (runImu l initialState) j hjne
      obtain ⟨z1, z2, z3, z4, z5, z6⟩ := ihZero j (by omega) hj2
      exact ⟨v1.trans z1, v2.trans z2, v3.trans z3,
        s1.trans z4, s2.trans z5, s3.trans z6⟩

/-- State after the first counterexample sample and `n` follow-up samples:
the cursor is at `n`, slot `n` holds the latest stamp, and slot 0 still
holds the velocity integrated by the very first sample. -/
theorem c1_run (n : ℕ) (hn : n ≤ 199) :
    (runImu (c1msg0 :: (List.range n).map c1f) initialState).imuPointerLast = (n : ℤ) ∧
    (runImu (c1msg0 :: (List.range n).map c1f) initialState).imuTime (n : ℤ) =
      1 / 20 + (n : ℝ) * (1 / 5) ∧
    (runImu (c1msg0 :: (List.range n).map c1f) initialState).imuVeloY 0 = 1 / 10 := by
  induction n with
  | zero =>
    have hint : c1msg0.stamp - initialState.imuTime (ringBack (nextLast initialState))
        < scanPeriod := by
      norm_num [c1msg0, initialState, scanPeriod]
    have hnl : nextLast initialState = 0 := by decide
    have hlist : c1msg0 :: (List.range 0).map c1f = [c1msg0] := by simp
    have hone : runImu [c1msg0] initialState = imuHandler c1msg0 initialState := rfl
    rw [hlist, hone]
    refine ⟨?_, ?_, ?_⟩
    · rw [imuHandler_last, hnl]
      norm_num
    · have := (imuHandler_write c1msg0 initialState).1
      rw [hnl] at this
      norm_num
      rw [this]
      norm_num [c1msg0]
    · have := (imuHandler_integrate c1msg0 initialState hint).2.1
      rw [hnl] at this
      have hacc : msgWorldAcc c1msg0 = (0, 2, 0) := by
        rw [msgWorldAcc_zero_rpy c1msg0 rfl rfl rfl]
        norm_num [c1msg0]
      rw [this, Function.update_same, hacc]
      norm_num [initialState, c1msg0]
  | succ n ih =>
    obtain ⟨ihLast, ihTime, ihVelo⟩ := ih (by omega)
    have hsplit : c1msg0 :: (List.range (n + 1)).map c1f =
        (c1msg0 :: (List.range n).map c1f) ++ [c1f n] := by
      simp [List.range_succ]
    set S := runImu (c1msg0 :: (List.range n).map c1f) initialState with hS
    have hnl : nextLast S = (n : ℤ) + 1 := by
      unfold nextLast imuQueLength
      rw [ihLast]
      omega
    have hrb : ringBack ((n : ℤ) + 1) = (n : ℤ) := by
      unfold ringBack imuQueLength
      omega
    have hskip : ¬ (c1f n).stamp - S.imuTime (ringBack (nextLast S)) < scanPeriod := by
      rw [hnl, hrb, ihTime]
      unfold c1f scanPeriod
      dsimp only
      intro hcon
      linarith
    rw [hsplit, runImu_snoc, ← hS]
    refine ⟨?_, ?_, ?_⟩
    · rw [imuHandler_last, hnl]
      push_cast
      ring
    · have := (imuHandler_write (c1f n) S).1
      rw [hnl] at this
      push_cast
      rw [this]
      rfl
    · have hv := (imuHandler_skip (c1f n) S hskip).2.1
      rw [hv, ihVelo]

/-- C1 counterexample: after the 201 samples of `c1msgs` the final sample's
measured gap is 1/5 ≥ `scanPeriod`, so its integration step is skipped, yet
the reused ring slot 0 it points at holds the velocity 1/10 ≠ 0 written 200
samples earlier — not the zero the claim asserts. -/
theorem C1_counterexample :
    ¬ (runImu c1msgs initialState).imuTime ((runImu c1msgs initialState).imuPointerLast)
        - (runImu c1msgs initialState).imuTime
            (ringBack ((runImu c1msgs initialState).imuPointerLast)) < scanPeriod ∧
    (runImu c1msgs initialState).imuPointerLast = 0 ∧
    (runImu c1msgs initialState).imuVeloY 0 = 1 / 10 ∧
    (1 : ℝ) / 10 ≠ 0 := by
  have hsplit : c1msgs = (c1msg0 :: (List.range 199).map c1f) ++ [c1f 199] := by
    unfold c1msgs
    rw [show (200 : ℕ) = 199 + 1 from rfl, List.range_succ, List.map_append]
    rfl
  obtain ⟨hLast, hTime, hVelo⟩ := c1_run 199 (by omega)
  set S := runImu (c1msg0 :: (List.range 199).map c1f) initialState with hS
  have hnl : nextLast S = 0 := by
    unfold nextLast imuQueLength
    rw [hLast]
    decide
  have hrb : ringBack (0 : ℤ) = 199 := by decide
  have hskip : ¬ (c1f 199).stamp - S.imuTime (ringBack (nextLast S)) < scanPeriod := by
    rw [hnl, hrb]
    rw [show ((199 : ℕ) : ℤ) = (199 : ℤ) by norm_num] at hTime
    rw [hTime]
    norm_num [c1f, scanPeriod]
  have hrun : runImu c1msgs initialState = imuHandler (c1f 199) S := by
    rw [hsplit, runImu_snoc]
  have hLast2 : (runImu c1msgs initialState).imuPointerLast = 0 := by
    rw [hrun, imuHandler_last, hnl]
  have hT0 : (runImu c1msgs initialState).imuTime 0 = (c1f 199).stamp := by
    have := (imuHandler_write (c1f 199) S).1
    rw [hnl] at this
    rw [hrun, this]
  have hT199 : (runImu c1msgs initialState).imuTime 199 = 1 / 20 + 199 * (1 / 5) := by
    have hne : (199 : ℤ) ≠ nextLast S := by rw [hnl]; decide
    have := (imuHandler_ring_frame (c1f 199) S 199 hne).1
    rw [hrun, this]
    rw [show ((199 : ℕ) : ℤ) = (199 : ℤ) by norm_num] at hTime
    rw [hTime]
    norm_num
  have hV : (runImu c1msgs initialState).imuVeloY 0 = 1 / 10 := by
    have := (imuHandler_skip (c1f 199) S hskip).2.1
    rw [hrun, this, hVelo]
  refine ⟨?_, hLast2, hV, by norm_num⟩
  rw [hLast2, hrb, hT0, hT199]
  norm_num [c1f, scanPeriod]

/-- C1 (amended): when an IMU sample's time difference to the previous ring
slot is not less than `scanPeriod`, the integration step is skipped and the
new slot's integrated position and velocity are left UNCHANGED rather than
reset; because the arrays are zero-initialized this means they are zero for
any run of at most `imuQueLength` samples from process start (no slot
reuse), but after the ring wraps the reused slot retains the values written
for an older sample. -/
theorem C1_skip_amended :
    (∀ (msg : ImuMsg) (st : GlobalState),
      ¬ msg.stamp - st.imuTime (ringBack (nextLast st)) < scanPeriod →
      (imuHandler msg st).imuVeloX = st.imuVeloX ∧
      (imuHandler msg st).imuVeloY = st.imuVeloY ∧
      (imuHandler msg st).imuVeloZ = st.imuVeloZ ∧
      (imuHandler msg st).imuShiftX = st.imuShiftX ∧
      (imuHandler msg st).imuShiftY = st.imuShiftY ∧
      (imuHandler msg st).imuShiftZ = st.imuShiftZ) ∧
    (∀ (l : List ImuMsg) (msg : ImuMsg), l.length + 1 ≤ 200 →
      ¬ msg.stamp - (runImu l initialState).imuTime
          (ringBack (nextLast (runImu l initialState))) < scanPeriod →
      (runImu (l ++ [msg]) initialState).imuVeloX
        ((runImu (l ++ [msg]) initialState).imuPointerLast) = 0 ∧
      (runImu (l ++ [msg]) initialState).imuVeloY
        ((runImu (l ++ [msg]) initialState).imuPointerLast) = 0 ∧
      (runImu (l ++ [msg]) initialState).imuVeloZ
        ((runImu (l ++ [msg]) initialState).imuPointerLast) = 0 ∧
      (runImu (l ++ [msg]) initialState).imuShiftX
        ((runImu (l ++ [msg]) initialState).imuPointerLast) = 0 ∧
      (runImu (l ++ [msg]) initialState).imuShiftY
        ((runImu (l ++ [msg]) initialState).imuPointerLast) = 0 ∧
      (runImu (l ++ [msg]) initialState).imuShiftZ
        ((runImu (l ++ [msg]) initialState).imuPointerLast) = 0) := by
  refine ⟨fun msg st h => imuHandler_skip msg st h, ?_⟩
  intro l msg hlen hskip
  obtain ⟨ihLast, ihZero⟩ := runImu_unvisited l (by omega)
  set S := runImu l initialState with hS
  have hnl : nextLast S = (l.length : ℤ) := by
    unfold nextLast imuQueLength
    rw [ihLast]
    have : (l.length : ℤ) < 200 := by exact_mod_cast (by omega : l.length < 200)
    omega
  have hrun : runImu (l ++ [msg]) initialState = imuHandler msg S := runImu_snoc l msg _
  have hLast2 : (runImu (l ++ [msg]) initialState).imuPointerLast = (l.length : ℤ) := by
    rw [hrun, imuHandler_last, hnl]
  obtain ⟨v1, v2, v3, s1, s2, s3⟩ := imuHandler_skip msg S hskip
  obtain ⟨z1, z2, z3, z4, z5, z6⟩ := ihZero (l.length : ℤ) le_rfl
    (by exact_mod_cast (by omega : l.length < 200))
  rw [hrun] at hLast2 ⊢
  rw [hLast2, v1, v2, v3, s1, s2, s3]
  exact ⟨z1, z2, z3, z4, z5, z6⟩

/-- Witness for the amended C1: a single first sample at time 1 is skipped
(its gap to the zero-initialized slot 199 is 1 ≥ 1/10) and the slot it
writes indeed holds zero velocity and shift. -/
theorem C1_witness :
    ((0 : ℕ) + 1 ≤ 200) ∧
    (runImu ([] ++ [c10msg]) initialState).imuVeloX
      ((runImu ([] ++ [c10msg]) initialState).imuPointerLast) = 0 ∧
    (runImu ([] ++ [c10msg]) initialState).imuShiftZ
      ((runImu ([] ++ [c10msg]) initialState).imuPointerLast) = 0 := by
  have h := C1_skip_amended.2 [] c10msg (by norm_num)
    (by norm_num [runImu, initialState, c10msg, scanPeriod])
  exact ⟨by norm_num, h.1, h.2.2.2.2.2⟩

/-! ### C8: uniform-acceleration integration -/

theorem c8msg_worldAcc (aX aY aZ t0 dt : ℝ) (k : ℕ) :
    msgWorldAcc (c8msg aX aY aZ t0 dt k) = (aX, aY, aZ) := by
  rw [msgWorldAcc_zero_rpy (c8msg aX aY aZ t0 dt k) rfl rfl rfl]
  show (aX, aY + 981 / 100 - 981 / 100, aZ) = (aX, aY, aZ)
  norm_num

/-- Running the synthetic stream: an at-rest anchor sample followed by `n`
uniformly spaced, uniformly accelerated samples yields the closed-form
velocity and displacement of uniformly accelerated motion from rest. -/
theorem c8_run (aX aY aZ t0 dt : ℝ) (ht0 : scanPeriod ≤ t0) (hdt0 : 0 < dt)
    (hdt : dt < scanPeriod) (n : ℕ) (hn : n ≤ 199) :
    (runImu ((List.range (n + 1)).map (c8msg aX aY aZ t0 dt)) initialState).imuPointerLast
        = (n : ℤ) ∧
    (runImu ((List.range (n + 1)).map (c8msg aX aY aZ t0 dt)) initialState).imuTime (n : ℤ)
        = t0 + (n : ℝ) * dt ∧
    (runImu ((List.range (n + 1)).map (c8msg aX aY aZ t0 dt)) initialState).imuVeloX (n : ℤ)
        = aX * ((n : ℝ) * dt) ∧
    (runImu ((List.range (n + 1)).map (c8msg aX aY aZ t0 dt)) initialState).imuVeloY (n : ℤ)
        = aY * ((n : ℝ) * dt) ∧
    (runImu ((List.range (n + 1)).map (c8msg aX aY aZ t0 dt)) initialState).imuVeloZ (n : ℤ)
        = aZ * ((n : ℝ) * dt) ∧
    (runImu ((List.range (n + 1)).map (c8msg aX aY aZ t0 dt)) initialState).imuShiftX (n : ℤ)
        = aX * ((n : ℝ) * dt) ^ 2 / 2 ∧
    (runImu ((List.range (n + 1)).map (c8msg aX aY aZ t0 dt)) initialState).imuShiftY (n : ℤ)
        = aY * ((n : ℝ) * dt) ^ 2 / 2 ∧
    (runImu ((List.range (n + 1)).map (c8msg aX aY aZ t0 dt)) initialState).imuShiftZ (n : ℤ)
        = aZ * ((n : ℝ) * dt) ^ 2 / 2 := by
  induction n with
  | zero =>
    have hlist : (List.range 1).map (c8msg aX aY aZ t0 dt) = [c8msg aX aY aZ t0 dt 0] := rfl
    have hone : runImu [c8msg aX aY aZ t0 dt 0] initialState =
        imuHandler (c8msg aX aY aZ t0 dt 0) initialState := rfl
    have hnl : nextLast initialState = 0 := by decide
    have hstamp : (c8msg aX aY aZ t0 dt 0).stamp = t0 := by
      show t0 + ((0 : ℕ) : ℝ) * dt = t0
      norm_num
    have hskip : ¬ (c8msg aX aY aZ t0 dt 0).stamp -
        initialState.imuTime (ringBack (nextLast initialState)) < scanPeriod := by
      rw [hstamp]
      show ¬ t0 - (0 : ℝ) < scanPeriod
      intro hcon
      linarith
    obtain ⟨v1, v2, v3, s1, s2, s3⟩ :=
      imuHandler_skip (c8msg aX aY aZ t0 dt 0) initialState hskip
    rw [hlist, hone]
    have hz : ((0 : ℕ) : ℤ) = (0 : ℤ) := Nat.cast_zero
    refine ⟨by rw [imuHandler_last, hnl]; norm_num, ?_, ?_, ?_, ?_, ?_, ?_, ?_⟩
    · have := (imuHandler_write (c8msg aX aY aZ t0 dt 0) initialState).1
      rw [hnl] at this
      rw [hz, this, hstamp]
      norm_num
    · rw [v1]
      norm_num [initialState]
    · rw [v2]
      norm_num [initialState]
    · rw [v3]
      norm_num [initialState]
    · rw [s1]
      norm_num [initialState]
    · rw [s2]
      norm_num [initialState]
    · rw [s3]
      norm_num [initialState]
  | succ n ih =>
    obtain ⟨ihLast, ihTime, ihVX, ihVY, ihVZ, ihSX, ihSY, ihSZ⟩ := ih (by omega)
    have hsplit : (List.range (n + 1 + 1)).map (c8msg aX aY aZ t0 dt) =
        (List.range (n + 1)).map (c8msg aX aY aZ t0 dt) ++ [c8msg aX aY aZ t0 dt (n + 1)] := by
      rw [List.range_succ, List.map_append]
      rfl
    set S := runImu ((List.range (n + 1)).map (c8msg aX aY aZ t0 dt)) initialState with hS
    have hnl : nextLast S = (n : ℤ) + 1 := by
      unfold nextLast imuQueLength
      rw [ihLast]
      omega
    have hrb : ringBack ((n : ℤ) + 1) = (n : ℤ) := by
      unfold ringBack imuQueLength
      omega
    have htd : (c8msg aX aY aZ t0 dt (n + 1)).stamp -
        S.imuTime (ringBack (nextLast S)) = dt := by
      rw [hnl, hrb, ihTime]
      show t0 + ((n : ℕ) + 1 : ℕ) * dt - (t0 + (n : ℝ) * dt) = dt
      push_cast
      ring
    have hint : (c8msg aX aY aZ t0 dt (n + 1)).stamp -
        S.imuTime (ringBack (nextLast S)) < scanPeriod := by
      rw [htd]; exact hdt
    obtain ⟨v1, v2, v3, s1, s2, s3⟩ := imuHandler_integrate (c8msg aX aY aZ t0 dt (n + 1)) S hint
    rw [hsplit, runImu_snoc, ← hS]
    have hcast : ((n + 1 : ℕ) : ℤ) = (n : ℤ) + 1 := by push_cast; ring
    have hcastR : ((n + 1 : ℕ) : ℝ) = (n : ℝ) + 1 := by push_cast; ring
    refine ⟨by rw [imuHandler_last, hnl, hcast], ?_, ?_, ?_, ?_, ?_, ?_, ?_⟩
    · have := (imuHandler_write (c8msg aX aY aZ t0 dt (n + 1)) S).1
      rw [hnl] at this
      rw [hcast, this, hcastR]
      show t0 + (((n : ℕ) + 1 : ℕ) : ℝ) * dt = t0 + ((n : ℝ) + 1) * dt
      push_cast
      ring
    · rw [hcast, v1, htd, hnl, Function.update_same, hrb, ihVX,
        c8msg_worldAcc, hcastR]
      ring
    · rw [hcast, v2, htd, hnl, Function.update_same, hrb, ihVY,
        c8msg_worldAcc, hcastR]
      ring
    · rw [hcast, v3, htd, hnl, Function.update_same, hrb, ihVZ,
        c8msg_worldAcc, hcastR]
      ring
    · rw [hcast, s1, htd, hnl, Function.update_same, hrb, ihSX, ihVX,
        c8msg_worldAcc, hcastR]
      ring
    · rw [hcast, s2, htd, hnl, Function.update_same, hrb, ihSY, ihVY,
        c8msg_worldAcc, hcastR]
      ring
    · rw [hcast, s3, htd, hnl, Function.update_same, hrb, ihSZ, ihVZ,
        c8msg_worldAcc, hcastR]
      ring

/-- C8: when consecutive IMU samples are closer than `scanPeriod`, the ring
is advanced with the uniform-acceleration update (first conjunct, exactly
the formulas of the integration branch, with `a` the world-rotated
acceleration of the new sample); consequently a stream of `n` samples with
constant world acceleration `(aX, aY, aZ)`, identity orientation and uniform
spacing `dt < scanPeriod` starting from rest (anchored by one skipped sample
at `t0 ≥ scanPeriod`) ends with `v[n] = a·n·dt` and `s[n] = a·(n·dt)²/2`
exactly. -/
theorem C8_integration :
    (∀ (msg : ImuMsg) (st : GlobalState),
      msg.stamp - st.imuTime (ringBack (nextLast st)) < scanPeriod →
      (imuHandler msg st).imuVeloX (nextLast st) =
        st.imuVeloX (ringBack (nextLast st)) + (msgWorldAcc msg).1 *
          (msg.stamp - st.imuTime (ringBack (nextLast st))) ∧
      (imuHandler msg st).imuVeloY (nextLast st) =
        st.imuVeloY (ringBack (nextLast st)) + (msgWorldAcc msg).2.1 *
          (msg.stamp - st.imuTime (ringBack (nextLast st))) ∧
      (imuHandler msg st).imuVeloZ (nextLast st) =
        st.imuVeloZ (ringBack (nextLast st)) + (msgWorldAcc msg).2.2 *
          (msg.stamp - st.imuTime (ringBack (nextLast st))) ∧
      (imuHandler msg st).imuShiftX (nextLast st) =
        st.imuShiftX (ringBack (nextLast st)) +
          st.imuVeloX (ringBack (nextLast st)) *
            (msg.stamp - st.imuTime (ringBack (nextLast st))) +
          (msgWorldAcc msg).1 * (msg.stamp - st.imuTime (ringBack (nextLast st))) *
            (msg.stamp - st.imuTime (ringBack (nextLast st))) / 2 ∧
      (imuHandler msg st).imuShiftY (nextLast st) =
        st.imuShiftY (ringBack (nextLast st)) +
          st.imuVeloY (ringBack (nextLast st)) *
            (msg.stamp - st.imuTime (ringBack (nextLast st))) +
          (msgWorldAcc msg).2.1 * (msg.stamp - st.imuTime (ringBack (nextLast st))) *
            (msg.stamp - st.imuTime (ringBack (nextLast st))) / 2 ∧
      (imuHandler msg st).imuShiftZ (nextLast st) =
        st.imuShiftZ (ringBack (nextLast st)) +
          st.imuVeloZ (ringBack (nextLast st)) *
            (msg.stamp - st.imuTime (ringBack (nextLast st))) +
          (msgWorldAcc msg).2.2 * (msg.stamp - st.imuTime (ringBack (nextLast st))) *
            (msg.stamp - st.imuTime (ringBack (nextLast st))) / 2) ∧
    (∀ (aX aY aZ t0 dt : ℝ) (n : ℕ), scanPeriod ≤ t0 → 0 < dt → dt < scanPeriod →
      n ≤ 199 →
      (runImu ((List.range (n + 1)).map (c8msg aX aY aZ t0 dt)) initialState).imuVeloX (n : ℤ)
          = aX * ((n : ℝ) * dt) ∧
      (runImu ((List.range (n + 1)).map (c8msg aX aY aZ t0 dt)) initialState).imuVeloY (n : ℤ)
          = aY * ((n : ℝ) * dt) ∧
      (runImu ((List.range (n + 1)).map (c8msg aX aY aZ t0 dt)) initialState).imuVeloZ (n : ℤ)
          = aZ * ((n : ℝ) * dt) ∧
      (runImu ((List.range (n + 1)).map (c8msg aX aY aZ t0 dt)) initialState).imuShiftX (n : ℤ)
          = aX * ((n : ℝ) * dt) ^ 2 / 2 ∧
      (runImu ((List.range (n + 1)).map (c8msg aX aY aZ t0 dt)) initialState).imuShiftY (n : ℤ)
          = aY * ((n : ℝ) * dt) ^ 2 / 2 ∧
      (runImu ((List.range (n + 1)).map (c8msg aX aY aZ t0 dt)) initialState).imuShiftZ (n : ℤ)
          = aZ * ((n : ℝ) * dt) ^ 2 / 2) := by
  constructor
  · intro msg st h
    obtain ⟨v1, v2, v3, s1, s2, s3⟩ := imuHandler_integrate msg st h
    rw [v1, v2, v3, s1, s2, s3]
    simp [Function.update_same]
  · intro aX aY aZ t0 dt n ht0 hdt0 hdt hn
    obtain ⟨-, -, h3, h4, h5, h6, h7, h8⟩ := c8_run aX aY aZ t0 dt ht0 hdt0 hdt n hn
    exact ⟨h3, h4, h5, h6, h7, h8⟩

/-- Witness for C8: two integrated samples at spacing 1/20 with world
acceleration (1, 2, 3) give `v = a·(2·(1/20))` and `s = a·(2·(1/20))²/2`. -/
theorem C8_witness :
    (runImu ((List.range 3).map (c8msg 1 2 3 (1 / 10) (1 / 20))) initialState).imuVeloX 2
        = 1 * ((2 : ℝ) * (1 / 20)) ∧
    (runImu ((List.range 3).map (c8msg 1 2 3 (1 / 10) (1 / 20))) initialState).imuShiftY 2
        = 2 * ((2 : ℝ) * (1 / 20)) ^ 2 / 2 := by
  have h := C8_integration.2 1 2 3 (1 / 10) (1 / 20) 2
    (by norm_num [scanPeriod]) (by norm_num) (by norm_num [scanPeriod]) (by norm_num)
  have h1 := h.1
  have h2 := h.2.2.2.2.1
  norm_num at h1 h2 ⊢
  exact ⟨h1, h2⟩

/-! ### C9: no-motion identity of the de-skew -/

/-- When the displacement residual is zero and the current Euler angles
equal the start Euler angles, `TransformToStartIMU` is the identity: the
forward rotation `Ry·Rx·Rz` is undone exactly by the inverse chain. -/
theorem transform_identity (st : GlobalState) (p : PointT)
    (hsx : st.imuShiftFromStartXCur = 0) (hsy : st.imuShiftFromStartYCur = 0)
    (hsz : st.imuShiftFromStartZCur = 0)
    (hr : st.imuRollCur = st.imuRollStart) (hp : st.imuPitchCur = st.imuPitchStart)
    (hy : st.imuYawCur = st.imuYawStart) :
    TransformToStartIMU st p = p := by
  obtain ⟨px, py, pz, pi⟩ := p
  have hRl := sin_sq_add_cos_sq st.imuRollStart
  have hPt := sin_sq_add_cos_sq st.imuPitchStart
  have hYw := sin_sq_add_cos_sq st.imuYawStart
  simp only [TransformToStartIMU, hsx, hsy, hsz, hr, hp, hy, add_zero, PointT.mk.injEq]
  refine ⟨?_, ?_, ?_, trivial⟩
  · linear_combination
      (cos st.imuRollStart * (cos st.imuRollStart * px - sin st.imuRollStart * py) +
        sin st.imuRollStart * sin st.imuPitchStart *
          (sin st.imuPitchStart * (sin st.imuRollStart * px + cos st.imuRollStart * py) +
            cos st.imuPitchStart * pz)) * hYw +
      (sin st.imuRollStart * (sin st.imuRollStart * px + cos st.imuRollStart * py)) * hPt +
      px * hRl
  · linear_combination
      (-(sin st.imuRollStart) * (cos st.imuRollStart * px - sin st.imuRollStart * py) +
        cos st.imuRollStart * sin st.imuPitchStart *
          (sin st.imuPitchStart * (sin st.imuRollStart * px + cos st.imuRollStart * py) +
            cos st.imuPitchStart * pz)) * hYw +
      (cos st.imuRollStart * (sin st.imuRollStart * px + cos st.imuRollStart * py)) * hPt +
      py * hRl
  · linear_combination
      (cos st.imuPitchStart *
        (sin st.imuPitchStart * (sin st.imuRollStart * px + cos st.imuRollStart * py) +
          cos st.imuPitchStart * pz)) * hYw +
      pz * hPt

/-- C9: if the IMU state used for a point has zero velocity and zero
integrated position in both the current and latched start slots and the
current orientation equals the start orientation, then the de-skew pipeline
(`ShiftToStartIMU`, `VeloToStartIMU`, `TransformToStartIMU`) produces zero
displacement and velocity residuals and maps the point to itself. -/
theorem C9_no_motion (st : GlobalState) (pointTime : ℝ) (p : PointT)
    (hvxc : st.imuVeloXCur = 0) (hvyc : st.imuVeloYCur = 0) (hvzc : st.imuVeloZCur = 0)
    (hvxs : st.imuVeloXStart = 0) (hvys : st.imuVeloYStart = 0) (hvzs : st.imuVeloZStart = 0)
    (hsxc : st.imuShiftXCur = 0) (hsyc : st.imuShiftYCur = 0) (hszc : st.imuShiftZCur = 0)
    (hsxs : st.imuShiftXStart = 0) (hsys : st.imuShiftYStart = 0) (hszs : st.imuShiftZStart = 0)
    (hrc : st.imuRollCur = st.imuRollStart) (hpc : st.imuPitchCur = st.imuPitchStart)
    (hyc : st.imuYawCur = st.imuYawStart) :
    (VeloToStartIMU (ShiftToStartIMU pointTime st)).imuShiftFromStartXCur = 0 ∧
    (VeloToStartIMU (ShiftToStartIMU pointTime st)).imuShiftFromStartYCur = 0 ∧
    (VeloToStartIMU (ShiftToStartIMU pointTime st)).imuShiftFromStartZCur = 0 ∧
    (VeloToStartIMU (ShiftToStartIMU pointTime st)).imuVeloFromStartXCur = 0 ∧
    (VeloToStartIMU (ShiftToStartIMU pointTime st)).imuVeloFromStartYCur = 0 ∧
    (VeloToStartIMU (ShiftToStartIMU pointTime st)).imuVeloFromStartZCur = 0 ∧
    TransformToStartIMU (VeloToStartIMU (ShiftToStartIMU pointTime st)) p = p := by
  have hshift : (VeloToStartIMU (ShiftToStartIMU pointTime st)).imuShiftFromStartXCur = 0 ∧
      (VeloToStartIMU (ShiftToStartIMU pointTime st)).imuShiftFromStartYCur = 0 ∧
      (VeloToStartIMU (ShiftToStartIMU pointTime st)).imuShiftFromStartZCur = 0 := by
    refine ⟨?_, ?_, ?_⟩ <;>
      simp [ShiftToStartIMU, VeloToStartIMU, hsxc, hsyc, hszc, hsxs, hsys, hszs,
        hvxs, hvys, hvzs]
  have hvelo : (VeloToStartIMU (ShiftToStartIMU pointTime st)).imuVeloFromStartXCur = 0 ∧
      (VeloToStartIMU (ShiftToStartIMU pointTime st)).imuVeloFromStartYCur = 0 ∧
      (VeloToStartIMU (ShiftToStartIMU pointTime st)).imuVeloFromStartZCur = 0 := by
    refine ⟨?_, ?_, ?_⟩ <;>
      simp [ShiftToStartIMU, VeloToStartIMU, hvxc, hvyc, hvzc, hvxs, hvys, hvzs]
  refine ⟨hshift.1, hshift.2.1, hshift.2.2, hvelo.1, hvelo.2.1, hvelo.2.2, ?_⟩
  apply transform_identity
  · exact hshift.1
  · exact hshift.2.1
  · exact hshift.2.2
  · show st.imuRollCur = st.imuRollStart
    exact hrc
  · show st.imuPitchCur = st.imuPitchStart
    exact hpc
  · show st.imuYawCur = st.imuYawStart
    exact hyc

/-- Witness for C9 at the initial state (all velocities, shifts and angles
zero) and the point (1, 2, 3): de-skew leaves it unchanged. -/
theorem C9_witness :
    (VeloToStartIMU (ShiftToStartIMU 5 initialState)).imuShiftFromStartXCur = 0 ∧
    TransformToStartIMU (VeloToStartIMU (ShiftToStartIMU 5 initialState))
      (PointT.mk 1 2 3 4) = PointT.mk 1 2 3 4 := by
  have h := C9_no_motion initialState 5 (PointT.mk 1 2 3 4)
    rfl rfl rfl rfl rfl rfl rfl rfl rfl rfl rfl rfl rfl rfl rfl
  exact ⟨h.1, h.2.2.2.2.2.2⟩

/-! ### C5: azimuth normalization -/

/-- C5 counterexample: at `startOri = 0`, `endOri = π` (both attainable from
the `atan2` framing) nothing is adjusted and the difference equals π, which
is not strictly greater than π as the claim asserts. -/
theorem C5_counterexample :
    ¬ (π < adjustEndOri 0 π - 0 ∧ adjustEndOri 0 π - 0 < 3 * π) := by
  have hpi := Real.pi_pos
  have hval : adjustEndOri 0 π = π := by
    unfold adjustEndOri
    rw [if_neg (by linarith), if_neg (by linarith)]
  rw [hval, sub_zero]
  intro hcon
  exact lt_irrefl π hcon.1

/-- C5 (amended): for any `startOri`, `endOri` whose raw difference lies in
`[0, 4π]` — as the `atan2` construction of the sweep guarantees — the single
normalization step brings `endOri - startOri` into the closed interval
`[π, 3π]`; the bounds are attained (difference exactly π or 3π), so the
strict version of the claim fails only there. -/
theorem C5_adjust_amended (startOri endOri : ℝ)
    (h0 : 0 ≤ endOri - startOri) (h4 : endOri - startOri ≤ 4 * π) :
    π ≤ adjustEndOri startOri endOri - startOri ∧
    adjustEndOri startOri endOri - startOri ≤ 3 * π := by
  have hpi := Real.pi_pos
  unfold adjustEndOri
  split_ifs with h1 h2 <;> constructor <;> linarith

/-- Witness for the amended C5 at `startOri = 0`, `endOri = 2π`. -/
theorem C5_witness :
    ((0 : ℝ) ≤ 2 * π - 0 ∧ 2 * π - 0 ≤ 4 * π) ∧
    π ≤ adjustEndOri 0 (2 * π) - 0 ∧ adjustEndOri 0 (2 * π) - 0 ≤ 3 * π := by
  have hpi := Real.pi_pos
  refine ⟨⟨by linarith, by linarith⟩, ?_⟩
  exact C5_adjust_amended 0 (2 * π) (by linarith) (by linarith)

/-! ### C4: the sweep callback on an empty cloud -/

/-- C4: contrary to the specification's no-fatal-error guarantee, a cloud
that is empty after NaN removal makes the sweep callback read
`points[0]` (and `points[cloudSize-1]`) out of bounds while computing the
start azimuth — in the model the callback aborts with `none`, publishing
nothing; in the C++ source this is undefined behaviour on an empty
`std::vector`. -/
theorem C4_empty_cloud_fails (downsample : List PointT → List PointT)
    (timeScanCur : ℝ) (st : GlobalState) :
    laserCloudHandler downsample timeScanCur [] st = none := by
  simp [laserCloudHandler, listGet?]

/-! ### C2: the first-point latch -/

theorem computeImuCur_start (tp : ℝ) (st : GlobalState) :
    (computeImuCur tp st).imuRollStart = st.imuRollStart ∧
    (computeImuCur tp st).imuPitchStart = st.imuPitchStart ∧
    (computeImuCur tp st).imuYawStart = st.imuYawStart ∧
    (computeImuCur tp st).imuVeloXStart = st.imuVeloXStart ∧
    (computeImuCur tp st).imuVeloYStart = st.imuVeloYStart ∧
    (computeImuCur tp st).imuVeloZStart = st.imuVeloZStart ∧
    (computeImuCur tp st).imuShiftXStart = st.imuShiftXStart ∧
    (computeImuCur tp st).imuShiftYStart = st.imuShiftYStart ∧
    (computeImuCur tp st).imuShiftZStart = st.imuShiftZStart := by
  unfold computeImuCur
  dsimp only
  split <;> simp

/-- A point processed at a loop index other than 0 never writes the Start
latch (the latch guard is `i == 0`). -/
theorem processPoint_start (t s e : ℝ) (i : ℕ) (hi : i ≠ 0) (pin : P3)
    (acc : SweepAcc) :
    (processPoint t s e i pin acc).st.imuRollStart = acc.st.imuRollStart ∧
    (processPoint t s e i pin acc).st.imuPitchStart = acc.st.imuPitchStart ∧
    (processPoint t s e i pin acc).st.imuYawStart = acc.st.imuYawStart ∧
    (processPoint t s e i pin acc).st.imuVeloXStart = acc.st.imuVeloXStart ∧
    (processPoint t s e i pin acc).st.imuVeloYStart = acc.st.imuVeloYStart ∧
    (processPoint t s e i pin acc).st.imuVeloZStart = acc.st.imuVeloZStart ∧
    (processPoint t s e i pin acc).st.imuShiftXStart = acc.st.imuShiftXStart ∧
    (processPoint t s e i pin acc).st.imuShiftYStart = acc.st.imuShiftYStart ∧
    (processPoint t s e i pin acc).st.imuShiftZStart = acc.st.imuShiftZStart := by
  obtain ⟨c1, c2, c3, c4, c5, c6, c7, c8, c9⟩ :=
    computeImuCur_start (t + ((adjustOriFn s e acc.halfPassed
      (-atan2 pin.y pin.x)).1 - s) / (e - s) * scanPeriod) acc.st
  unfold processPoint
  dsimp only
  split_ifs with h1 h2
  · exact ⟨rfl, rfl, rfl, rfl, rfl, rfl, rfl, rfl, rfl⟩
  · refine ⟨?_, ?_, ?_, ?_, ?_, ?_, ?_, ?_, ?_⟩ <;>
      simp only [ShiftToStartIMU, VeloToStartIMU] <;>
      assumption
  · exact ⟨rfl, rfl, rfl, rfl, rfl, rfl, rfl, rfl, rfl⟩

/-- Folding the tail of the enumerated point list (all indices at least 1)
never writes the Start latch. -/
theorem foldl_enumFrom_start (t s e : ℝ) (rest : List P3) :
    ∀ (n : ℕ), 1 ≤ n → ∀ (acc : SweepAcc),
    ((rest.enumFrom n).foldl (fun a ip => processPoint t s e ip.1 ip.2 a) acc).st.imuRollStart
        = acc.st.imuRollStart ∧
    ((rest.enumFrom n).foldl (fun a ip => processPoint t s e ip.1 ip.2 a) acc).st.imuPitchStart
        = acc.st.imuPitchStart ∧
    ((rest.enumFrom n).foldl (fun a ip => processPoint t s e ip.1 ip.2 a) acc).st.imuYawStart
        = acc.st.imuYawStart ∧
    ((rest.enumFrom n).foldl (fun a ip => processPoint t s e ip.1 ip.2 a) acc).st.imuVeloXStart
        = acc.st.imuVeloXStart ∧
    ((rest.enumFrom n).foldl (fun a ip => processPoint t s e ip.1 ip.2 a) acc).st.imuVeloYStart
        = acc.st.imuVeloYStart ∧
    ((rest.enumFrom n).foldl (fun a ip => processPoint t s e ip.1 ip.2 a) acc).st.imuVeloZStart
        = acc.st.imuVeloZStart ∧
    ((rest.enumFrom n).foldl (fun a ip => processPoint t s e ip.1 ip.2 a) acc).st.imuShiftXStart
        = acc.st.imuShiftXStart ∧
    ((rest.enumFrom n).foldl (fun a ip => processPoint t s e ip.1 ip.2 a) acc).st.imuShiftYStart
        = acc.st.imuShiftYStart ∧
    ((rest.enumFrom n).foldl (fun a ip => processPoint t s e ip.1 ip.2 a) acc).st.imuShiftZStart
        = acc.st.imuShiftZStart := by
  induction rest with
  | nil =>
    intro n hn acc
    exact ⟨rfl, rfl, rfl, rfl, rfl, rfl, rfl, rfl, rfl⟩
  | cons q qs ih =>
    intro n hn acc
    have hcons : (q :: qs).enumFrom n = (n, q) :: qs.enumFrom (n + 1) := rfl
    rw [hcons, List.foldl_cons]
    obtain ⟨p1, p2, p3, p4, p5, p6, p7, p8, p9⟩ :=
      processPoint_start t s e n (by omega) q acc
    obtain ⟨q1, q2, q3, q4, q5, q6, q7, q8, q9⟩ :=
      ih (n + 1) (by omega) (processPoint t s e n q acc)
    exact ⟨q1.trans p1, q2.trans p2, q3.trans p3, q4.trans p4, q5.trans p5,
      q6.trans p6, q7.trans p7, q8.trans p8, q9.trans p9⟩

/-- C2 (amended): when the FIRST point of the NaN-filtered cloud passes the
beam-index rejection and the IMU ring is nonempty, the Start latch records
exactly the interpolated IMU state at that point's time.  (The latch guard
is `i == 0` on the NaN-filtered cloud, not "first kept point": the
counterexample shows that when point 0 is rejected no latch is written at
all during the sweep.) -/
theorem C2_latch_amended (t s e : ℝ) (p : P3) (rest : List P3) (st : GlobalState)
    (hkeep : ¬ (N_SCANS - 1 < scanIDOf p ∨ scanIDOf p < 0))
    (himu : 0 ≤ st.imuPointerLast) :
    (ingestPoints t s e (p :: rest) (initAcc st (p :: rest))).st.imuRollStart =
      (computeImuCur (t + ((adjustOriFn s e false (-atan2 p.y p.x)).1 - s) / (e - s) *
        scanPeriod) st).imuRollCur ∧
    (ingestPoints t s e (p :: rest) (initAcc st (p :: rest))).st.imuPitchStart =
      (computeImuCur (t + ((adjustOriFn s e false (-atan2 p.y p.x)).1 - s) / (e - s) *
        scanPeriod) st).imuPitchCur ∧
    (ingestPoints t s e (p :: rest) (initAcc st (p :: rest))).st.imuYawStart =
      (computeImuCur (t + ((adjustOriFn s e false (-atan2 p.y p.x)).1 - s) / (e - s) *
        scanPeriod) st).imuYawCur ∧
    (ingestPoints t s e (p :: rest) (initAcc st (p :: rest))).st.imuVeloXStart =
      (computeImuCur (t + ((adjustOriFn s e false (-atan2 p.y p.x)).1 - s) / (e - s) *
        scanPeriod) st).imuVeloXCur ∧
    (ingestPoints t s e (p :: rest) (initAcc st (p :: rest))).st.imuVeloYStart =
      (computeImuCur (t + ((adjustOriFn s e false (-atan2 p.y p.x)).1 - s) / (e - s) *
        scanPeriod) st).imuVeloYCur ∧
    (ingestPoints t s e (p :: rest) (initAcc st (p :: rest))).st.imuVeloZStart =
      (computeImuCur (t + ((adjustOriFn s e false (-atan2 p.y p.x)).1 - s) / (e - s) *
        scanPeriod) st).imuVeloZCur ∧
    (ingestPoints t s e (p :: rest) (initAcc st (p :: rest))).st.imuShiftXStart =
      (computeImuCur (t + ((adjustOriFn s e false (-atan2 p.y p.x)).1 - s) / (e - s) *
        scanPeriod) st).imuShiftXCur ∧
    (ingestPoints t s e (p :: rest) (initAcc st (p :: rest))).st.imuShiftYStart =
      (computeImuCur (t + ((adjustOriFn s e false (-atan2 p.y p.x)).1 - s) / (e - s) *
        scanPeriod) st).imuShiftYCur ∧
    (ingestPoints t s e (p :: rest) (initAcc st (p :: rest))).st.imuShiftZStart =
      (computeImuCur (t + ((adjustOriFn s e false (-atan2 p.y p.x)).1 - s) / (e - s) *
        scanPeriod) st).imuShiftZCur := by
  have hfold : ingestPoints t s e (p :: rest) (initAcc st (p :: rest)) =
      (rest.enumFrom 1).foldl (fun a ip => processPoint t s e ip.1 ip.2 a)
        (processPoint t s e 0 p (initAcc st (p :: rest))) := rfl
  have hfirst :
      (processPoint t s e 0 p (initAcc st (p :: rest))).st.imuRollStart =
        (computeImuCur (t + ((adjustOriFn s e false (-atan2 p.y p.x)).1 - s) / (e - s) *
          scanPeriod) st).imuRollCur ∧
      (processPoint t s e 0 p (initAcc st (p :: rest))).st.imuPitchStart =
        (computeImuCur (t + ((adjustOriFn s e false (-atan2 p.y p.x)).1 - s) / (e - s) *
          scanPeriod) st).imuPitchCur ∧
      (processPoint t s e 0 p (initAcc st (p :: rest))).st.imuYawStart =
        (computeImuCur (t + ((adjustOriFn s e false (-atan2 p.y p.x)).1 - s) / (e - s) *
          scanPeriod) st).imuYawCur ∧
      (processPoint t s e 0 p (initAcc st (p :: rest))).st.imuVeloXStart =
        (computeImuCur (t + ((adjustOriFn s e false (-atan2 p.y p.x)).1 - s) / (e - s) *
          scanPeriod) st).imuVeloXCur ∧
      (processPoint t s e 0 p (initAcc st (p :: rest))).st.imuVeloYStart =
        (computeImuCur (t + ((adjustOriFn s e false (-atan2 p.y p.x)).1 - s) / (e - s) *
          scanPeriod) st).imuVeloYCur ∧
      (processPoint t s e 0 p (initAcc st (p :: rest))).st.imuVeloZStart =
        (computeImuCur (t + ((adjustOriFn s e false (-atan2 p.y p.x)).1 - s) / (e - s) *
          scanPeriod) st).imuVeloZCur ∧
      (processPoint t s e 0 p (initAcc st (p :: rest))).st.imuShiftXStart =
        (computeImuCur (t + ((adjustOriFn s e false (-atan2 p.y p.x)).1 - s) / (e - s) *
          scanPeriod) st).imuShiftXCur ∧
      (processPoint t s e 0 p (initAcc st (p :: rest))).st.imuShiftYStart =
        (computeImuCur (t + ((adjustOriFn s e false (-atan2 p.y p.x)).1 - s) / (e - s) *
          scanPeriod) st).imuShiftYCur ∧
      (processPoint t s e 0 p (initAcc st (p :: rest))).st.imuShiftZStart =
        (computeImuCur (t + ((adjustOriFn s e false (-atan2 p.y p.x)).1 - s) / (e - s) *
          scanPeriod) st).imuShiftZCur := by
    unfold processPoint initAcc
    dsimp only
    rw [if_neg hkeep, if_pos himu, if_pos rfl]
    exact ⟨rfl, rfl, rfl, rfl, rfl, rfl, rfl, rfl, rfl⟩
  obtain ⟨f1, f2, f3, f4, f5, f6, f7, f8, f9⟩ := hfirst
  obtain ⟨g1, g2, g3, g4, g5, g6, g7, g8, g9⟩ :=
    foldl_enumFrom_start t s e rest 1 le_rfl
      (processPoint t s e 0 p (initAcc st (p :: rest)))
  rw [hfold]
  exact ⟨g1.trans f1, g2.trans f2, g3.trans f3, g4.trans f4, g5.trans f5,
    g6.trans f6, g7.trans f7, g8.trans f8, g9.trans f9⟩

theorem advanceFront_succ (tp : ℝ) (last : ℤ) (time : ℤ → ℝ) (n : ℕ) (front : ℤ) :
    advanceFront tp last time (n + 1) front =
      if front ≠ last then
        (if tp < time front then front
         else advanceFront tp last time n ((front + 1) % imuQueLength))
      else front := rfl

theorem scanIDOf_c2p0 : scanIDOf c2p0 = 45 := by
  unfold scanIDOf c2p0
  dsimp only
  rw [show (0 : ℝ) * 0 + 1 * 1 = 1 by norm_num, Real.sqrt_one, div_one, Real.arctan_one]
  have hangle : π / 4 * 180 / π = 45 := by
    have := Real.pi_ne_zero
    field_simp
    ring
  rw [hangle]
  rw [if_neg (by norm_num : ¬ (45 : ℝ) < 0)]
  unfold cTrunc
  rw [if_pos (by norm_num : (0 : ℝ) ≤ 45 + 1 / 2)]
  rw [show (45 : ℝ) + 1 / 2 = 91 / 2 by norm_num]
  have hfl : ⌊(91 / 2 : ℝ)⌋ = 45 := by
    rw [Int.floor_eq_iff]
    norm_num
  rw [hfl]
  rfl

theorem scanIDOf_c2p1 : scanIDOf c2p1 = 15 := by
  unfold scanIDOf c2p1
  dsimp only
  rw [show (0 : ℝ) * 0 + 1 * 1 = 1 by norm_num, Real.sqrt_one, div_one, Real.arctan_zero]
  rw [show (0 : ℝ) * 180 / π = 0 by ring]
  rw [if_neg (by norm_num : ¬ (0 : ℝ) < 0)]
  unfold cTrunc
  rw [if_pos (by norm_num : (0 : ℝ) ≤ 0 + 1 / 2)]
  rw [show (0 : ℝ) + 1 / 2 = 1 / 2 by norm_num]
  have hfl : ⌊(1 / 2 : ℝ)⌋ = 0 := by
    rw [Int.floor_eq_iff]
    norm_num
  rw [hfl]
  rfl

theorem atan2_zero_one : atan2 0 1 = 0 := by
  unfold atan2
  rw [if_pos (by norm_num : (0 : ℝ) < 1)]
  norm_num

theorem c2_interp : (computeImuCur 10 c2st).imuRollCur = 1 := by
  have hfront : advanceFront 10 c2st.imuPointerLast c2st.imuTime
      imuQueLength.toNat c2st.imuPointerFront = 0 := by
    rw [show imuQueLength.toNat = 199 + 1 from rfl, advanceFront_succ]
    rw [if_neg (by simp [c2st, initialState])]
    simp [c2st, initialState]
  unfold computeImuCur
  dsimp only
  rw [hfront]
  rw [if_pos (by norm_num [c2st, initialState] : (10 : ℝ) > c2st.imuTime 0)]
  rfl

theorem c2_tp :
    (10 : ℝ) + ((adjustOriFn 0 (2 * π) false (-atan2 c2p1.y c2p1.x)).1 - 0) /
      (2 * π - 0) * scanPeriod = 10 := by
  rw [show atan2 c2p1.y c2p1.x = atan2 0 1 from rfl, atan2_zero_one, neg_zero]
  have hadj : (adjustOriFn 0 (2 * π) false 0).1 = 0 := by
    unfold adjustOriFn
    rw [if_pos rfl]
    dsimp only
    rw [if_neg (by intro hc; nlinarith [Real.pi_pos]),
      if_neg (by intro hc; nlinarith [Real.pi_pos])]
  rw [hadj]
  simp

theorem c2_ingest_roll :
    (ingestPoints 10 0 (2 * π) [c2p0, c2p1] (initAcc c2st [c2p0, c2p1])).st.imuRollStart
      = 0 := by
  have hrej : N_SCANS - 1 < scanIDOf c2p0 ∨ scanIDOf c2p0 < 0 := by
    left
    rw [scanIDOf_c2p0]
    decide
  have hfold : ingestPoints 10 0 (2 * π) [c2p0, c2p1] (initAcc c2st [c2p0, c2p1]) =
      processPoint 10 0 (2 * π) 1 c2p1
        (processPoint 10 0 (2 * π) 0 c2p0 (initAcc c2st [c2p0, c2p1])) := rfl
  have hp0 : processPoint 10 0 (2 * π) 0 c2p0 (initAcc c2st [c2p0, c2p1]) =
      { initAcc c2st [c2p0, c2p1] with count := (initAcc c2st [c2p0, c2p1]).count - 1 } := by
    unfold processPoint
    dsimp only
    rw [if_pos hrej]
  rw [hfold, hp0]
  rw [(processPoint_start 10 0 (2 * π) 1 (by omega) c2p1 _).1]
  rfl

/-- C2 counterexample: on a NaN-filtered cloud whose point 0 has beam index
45 (rejected by the field-of-view check) while point 1 has beam index 15
(kept), with a nonempty IMU ring whose sample has roll 1, the start latch
after the sweep still holds its stale value 0, whereas the interpolated IMU
state at the time of the first KEPT point (point 1) has roll 1 — the latch
does not record the first kept point's state, because the `i == 0` guard
never fires for it. -/
theorem C2_counterexample :
    N_SCANS - 1 < scanIDOf c2p0 ∧
    ¬ (N_SCANS - 1 < scanIDOf c2p1 ∨ scanIDOf c2p1 < 0) ∧
    0 ≤ c2st.imuPointerLast ∧
    -atan2 c2p0.y c2p0.x = 0 ∧
    adjustEndOri 0 (-atan2 c2p1.y c2p1.x + 2 * π) = 2 * π ∧
    (ingestPoints 10 0 (2 * π) [c2p0, c2p1] (initAcc c2st [c2p0, c2p1])).st.imuRollStart
      = 0 ∧
    (computeImuCur (10 + ((adjustOriFn 0 (2 * π) false (-atan2 c2p1.y c2p1.x)).1 - 0) /
        (2 * π - 0) * scanPeriod) c2st).imuRollCur = 1 ∧
    (0 : ℝ) ≠ 1 := by
  refine ⟨?_, ?_, ?_, ?_, ?_, c2_ingest_roll, ?_, by norm_num⟩
  · rw [scanIDOf_c2p0]
    decide
  · rw [scanIDOf_c2p1]
    decide
  · decide
  · rw [show atan2 c2p0.y c2p0.x = atan2 0 1 from rfl, atan2_zero_one, neg_zero]
  · rw [show atan2 c2p1.y c2p1.x = atan2 0 1 from rfl, atan2_zero_one, neg_zero, zero_add]
    unfold adjustEndOri
    rw [if_neg (by intro hc; nlinarith [Real.pi_pos]),
      if_neg (by intro hc; nlinarith [Real.pi_pos])]
  · rw [c2_tp]
    exact c2_interp

/-- Witness for the amended C2: a cloud whose first point is kept, with a
nonempty ring — the latch equals the interpolated state at its time. -/
theorem C2_witness :
    (¬ (N_SCANS - 1 < scanIDOf c2p1 ∨ scanIDOf c2p1 < 0)) ∧
    (0 ≤ c2st.imuPointerLast) ∧
    (ingestPoints 10 0 (2 * π) [c2p1] (initAcc c2st [c2p1])).st.imuRollStart =
      (computeImuCur (10 + ((adjustOriFn 0 (2 * π) false (-atan2 c2p1.y c2p1.x)).1 - 0) /
        (2 * π - 0) * scanPeriod) c2st).imuRollCur := by
  have hkeep : ¬ (N_SCANS - 1 < scanIDOf c2p1 ∨ scanIDOf c2p1 < 0) := by
    rw [scanIDOf_c2p1]
    decide
  have himu : (0 : ℤ) ≤ c2st.imuPointerLast := by decide
  exact ⟨hkeep, himu, (C2_latch_amended 10 0 (2 * π) c2p1 [] c2st hkeep himu).1⟩

/-! ### C6: intensity encoding -/

theorem atan2_range (y x : ℝ) : -π ≤ atan2 y x ∧ atan2 y x ≤ π := by
  have hpi := Real.pi_pos
  have h1 := Real.arctan_lt_pi_div_two (y / x)
  have h2 := Real.neg_pi_div_two_lt_arctan (y / x)
  unfold atan2
  split_ifs with hx hx2 hy hy1 hy2
  · constructor <;> linarith
  · have hd : y / x ≤ 0 := div_nonpos_iff.mpr (Or.inl ⟨hy, hx2.le⟩)
    have h3 : arctan (y / x) ≤ 0 :=
      le_of_le_of_eq (Real.arctan_strictMono.monotone hd) Real.arctan_zero
    constructor <;> linarith
  · have hd : 0 ≤ y / x := div_nonneg_of_nonpos (by linarith) hx2.le
    have h3 : 0 ≤ arctan (y / x) :=
      le_of_eq_of_le Real.arctan_zero.symm (Real.arctan_strictMono.monotone hd)
    constructor <;> linarith
  · constructor <;> linarith
  · constructor <;> linarith
  · constructor <;> linarith

theorem relTime_bounds (startOri endOri ori0 : ℝ) (hp : Bool)
    (hs1 : -π ≤ startOri) (hs2 : startOri ≤ π)
    (ho1 : -π ≤ ori0) (ho2 : ori0 ≤ π)
    (hd1 : π ≤ endOri - startOri) (hd2 : endOri - startOri ≤ 3 * π) :
    -(1 / 2) ≤ ((adjustOriFn startOri endOri hp ori0).1 - startOri) / (endOri - startOri) ∧
    ((adjustOriFn startOri endOri hp ori0).1 - startOri) / (endOri - startOri) ≤ 2 := by
  have hpi := Real.pi_pos
  have hden : 0 < endOri - startOri := by linarith
  unfold adjustOriFn
  cases hp with
  | false =>
    rw [if_pos rfl]
    dsimp only
    split_ifs with h1 h2
    · exact ⟨by rw [le_div_iff₀ hden]; nlinarith, by rw [div_le_iff₀ hden]; nlinarith⟩
    · exact ⟨by rw [le_div_iff₀ hden]; nlinarith, by rw [div_le_iff₀ hden]; nlinarith⟩
    · exact ⟨by rw [le_div_iff₀ hden]; nlinarith, by rw [div_le_iff₀ hden]; nlinarith⟩
  | true =>
    rw [if_neg (by simp)]
    dsimp only
    split_ifs with h1 h2
    · exact ⟨by rw [le_div_iff₀ hden]; nlinarith, by rw [div_le_iff₀ hden]; nlinarith⟩
    · exact ⟨by rw [le_div_iff₀ hden]; nlinarith, by rw [div_le_iff₀ hden]; nlinarith⟩
    · exact ⟨by rw [le_div_iff₀ hden]; nlinarith, by rw [div_le_iff₀ hden]; nlinarith⟩

theorem round_intensity (id : ℤ) (r : ℝ) (h1 : -(1 / 2) ≤ r) (h2 : r ≤ 2) :
    round ((id : ℝ) + scanPeriod * r) = id := by
  rw [round_eq, show (id : ℝ) + scanPeriod * r + 1 / 2 = scanPeriod * r + 1 / 2 + (id : ℤ) by
    push_cast; ring, Int.floor_add_int]
  have hz : ⌊scanPeriod * r + 1 / 2⌋ = 0 := by
    rw [Int.floor_eq_iff]
    unfold scanPeriod
    constructor
    · nlinarith
    · push_cast
      nlinarith
  rw [hz, zero_add]

theorem transform_intensity (st : GlobalState) (p : PointT) :
    (TransformToStartIMU st p).intensity = p.intensity := rfl

theorem IntensityOk_transform (st : GlobalState) (id : ℤ) (p : PointT)
    (h : IntensityOk id p) : IntensityOk id (TransformToStartIMU st p) := by
  unfold IntensityOk at h ⊢
  rw [transform_intensity]
  exact h

theorem update_push_mem {scans : ℤ → List PointT} {sid id : ℤ} {q pt : PointT}
    (hmem : pt ∈ Function.update scans sid (scans sid ++ [q]) id) :
    pt ∈ scans id ∨ (id = sid ∧ pt = q) := by
  by_cases h : id = sid
  · subst h
    rw [Function.update_same] at hmem
    rcases List.mem_append.mp hmem with h | h
    · exact Or.inl h
    · exact Or.inr ⟨rfl, List.mem_singleton.mp h⟩
  · rw [Function.update_noteq h] at hmem
    exact Or.inl hmem

theorem processPoint_intensity (t s e : ℝ) (i : ℕ) (pin : P3) (acc : SweepAcc)
    (hs1 : -π ≤ s) (hs2 : s ≤ π) (hd1 : π ≤ e - s) (hd2 : e - s ≤ 3 * π)
    (hacc : ∀ id pt, pt ∈ acc.scans id → IntensityOk id pt) :
    ∀ id pt, pt ∈ (processPoint t s e i pin acc).scans id → IntensityOk id pt := by
  intro id pt hmem
  by_cases hrej : N_SCANS - 1 < scanIDOf pin ∨ scanIDOf pin < 0
  · unfold processPoint at hmem
    dsimp only at hmem
    rw [if_pos hrej] at hmem
    exact hacc id pt hmem
  · push_neg at hrej
    have hID1 : 0 ≤ scanIDOf pin := by omega
    have hID2 : scanIDOf pin ≤ N_SCANS - 1 := by omega
    have hori := atan2_range pin.y pin.x
    have hrtb := relTime_bounds s e (-atan2 pin.y pin.x) acc.halfPassed hs1 hs2
      (by linarith [hori.2]) (by linarith [hori.1]) hd1 hd2
    have hfresh : IntensityOk (scanIDOf pin)
        { x := pin.y, y := pin.z, z := pin.x,
          intensity := (scanIDOf pin : ℝ) + scanPeriod *
            (((adjustOriFn s e acc.halfPassed (-atan2 pin.y pin.x)).1 - s) / (e - s)) } := by
      refine ⟨hID1, hID2, round_intensity _ _ hrtb.1 hrtb.2, ?_, ?_⟩
      · have heq : ((scanIDOf pin : ℝ) + scanPeriod *
            (((adjustOriFn s e acc.halfPassed (-atan2 pin.y pin.x)).1 - s) / (e - s)) -
            (scanIDOf pin : ℝ)) / scanPeriod =
            ((adjustOriFn s e acc.halfPassed (-atan2 pin.y pin.x)).1 - s) / (e - s) := by
          rw [add_sub_cancel_left,
            mul_div_cancel_left₀ _ (by norm_num [scanPeriod] : scanPeriod ≠ 0)]
        rw [heq]
        exact hrtb.1
      · have heq : ((scanIDOf pin : ℝ) + scanPeriod *
            (((adjustOriFn s e acc.halfPassed (-atan2 pin.y pin.x)).1 - s) / (e - s)) -
            (scanIDOf pin : ℝ)) / scanPeriod =
            ((adjustOriFn s e acc.halfPassed (-atan2 pin.y pin.x)).1 - s) / (e - s) := by
          rw [add_sub_cancel_left,
            mul_div_cancel_left₀ _ (by norm_num [scanPeriod] : scanPeriod ≠ 0)]
        rw [heq]
        exact hrtb.2
    unfold processPoint at hmem
    dsimp only at hmem
    rw [if_neg (by push_neg; exact hrej)] at hmem
    split_ifs at hmem with h1 h2
    · dsimp only at hmem
      rcases update_push_mem hmem with h | ⟨hid, hpt⟩
      · exact hacc id pt h
      · rw [hid, hpt]
        exact hfresh
    · dsimp only at hmem
      rcases update_push_mem hmem with h | ⟨hid, hpt⟩
      · exact hacc id pt h
      · rw [hid, hpt]
        exact IntensityOk_transform _ _ _ hfresh
    · dsimp only at hmem
      rcases update_push_mem hmem with h | ⟨hid, hpt⟩
      · exact hacc id pt h
      · rw [hid, hpt]
        exact hfresh

theorem c6_rt :
    ((adjustOriFn 0 (2 * π) false (-atan2 c2p1.y c2p1.x)).1 - 0) / (2 * π - 0) = 0 := by
  rw [show atan2 c2p1.y c2p1.x = atan2 0 1 from rfl, atan2_zero_one, neg_zero]
  have hadj : (adjustOriFn 0 (2 * π) false 0).1 = 0 := by
    unfold adjustOriFn
    rw [if_pos rfl]
    dsimp only
    rw [if_neg (by intro hc; nlinarith [Real.pi_pos]),
      if_neg (by intro hc; nlinarith [Real.pi_pos])]
  rw [hadj]
  simp

theorem c6w_eval :
    (ingestPoints 10 0 (2 * π) [c2p1] (initAcc c2st [c2p1])).scans 15 = [⟨0, 0, 1, 15⟩] := by
  have hfold : ingestPoints 10 0 (2 * π) [c2p1] (initAcc c2st [c2p1]) =
      processPoint 10 0 (2 * π) 0 c2p1 (initAcc c2st [c2p1]) := rfl
  rw [hfold]
  unfold processPoint initAcc
  dsimp only
  rw [if_neg (by rw [scanIDOf_c2p1]; decide),
    if_pos (by decide : (0 : ℤ) ≤ c2st.imuPointerLast), if_pos rfl]
  dsimp only
  rw [scanIDOf_c2p1, Function.update_same, c6_rt]
  norm_num
  exact ⟨rfl, rfl, rfl⟩

theorem foldl_intensity (t s e : ℝ) (hs1 : -π ≤ s) (hs2 : s ≤ π)
    (hd1 : π ≤ e - s) (hd2 : e - s ≤ 3 * π) (l : List (ℕ × P3)) :
    ∀ (acc : SweepAcc), (∀ id pt, pt ∈ acc.scans id → IntensityOk id pt) →
    ∀ id pt, pt ∈ (l.foldl (fun a ip => processPoint t s e ip.1 ip.2 a) acc).scans id →
      IntensityOk id pt := by
  induction l with
  | nil => exact fun acc hacc => hacc
  | cons q qs ih =>
    intro acc hacc
    rw [List.foldl_cons]
    exact ih _ (processPoint_intensity t s e q.1 q.2 acc hs1 hs2 hd1 hd2 hacc)

theorem C6_intensity_amended (t s e : ℝ) (pts : List P3) (st : GlobalState)
    (hs1 : -π ≤ s) (hs2 : s ≤ π) (hd1 : π ≤ e - s) (hd2 : e - s ≤ 3 * π) :
    ∀ id pt, pt ∈ (ingestPoints t s e pts (initAcc st pts)).scans id →
      IntensityOk id pt := by
  unfold ingestPoints
  apply foldl_intensity t s e hs1 hs2 hd1 hd2
  intro id pt hmem
  simp [initAcc] at hmem

theorem C6_witness :
    ((-π ≤ (0 : ℝ)) ∧ (0 : ℝ) ≤ π ∧ π ≤ 2 * π - 0 ∧ 2 * π - 0 ≤ 3 * π) ∧
    IntensityOk 15 ⟨0, 0, 1, 15⟩ := by
  have hpi := Real.pi_pos
  refine ⟨⟨by linarith, by linarith, by linarith, by linarith⟩, ?_⟩
  refine C6_intensity_amended 10 0 (2 * π) [c2p1] c2st (by linarith) (by linarith)
    (by linarith) (by linarith) 15 _ ?_
  rw [c6w_eval]
  exact List.mem_singleton.mpr rfl


theorem scanIDOf_c6p0 : scanIDOf c6p0 = 15 := scanIDOf_c2p1

theorem scanIDOf_c6p1 : scanIDOf c6p1 = 15 := by
  unfold scanIDOf c6p1
  dsimp only
  rw [show (0 : ℝ) / Real.sqrt (1 * 1 + 1 * 1) = 0 from zero_div _, Real.arctan_zero]
  rw [show (0 : ℝ) * 180 / π = 0 by ring]
  rw [if_neg (by norm_num : ¬ (0 : ℝ) < 0)]
  unfold cTrunc
  rw [if_pos (by norm_num : (0 : ℝ) ≤ 0 + 1 / 2)]
  rw [show (0 : ℝ) + 1 / 2 = 1 / 2 by norm_num]
  have hfl : ⌊(1 / 2 : ℝ)⌋ = 0 := by
    rw [Int.floor_eq_iff]
    norm_num
  rw [hfl]
  rfl

theorem atan2_one_one : atan2 1 1 = π / 4 := by
  unfold atan2
  rw [if_pos (by norm_num : (0 : ℝ) < 1)]
  rw [show (1 : ℝ) / 1 = 1 from div_one 1, Real.arctan_one]

theorem c6_adjA : adjustOriFn 0 (7 * π / 4) false (-atan2 0 1) = (0, false) := by
  rw [atan2_zero_one, neg_zero]
  unfold adjustOriFn
  rw [if_pos rfl]
  dsimp only
  rw [if_neg (by intro hc; nlinarith [Real.pi_pos]),
    if_neg (by intro hc; nlinarith [Real.pi_pos]),
    if_neg (by intro hc; nlinarith [Real.pi_pos])]

theorem c6_adjB : adjustOriFn 0 (7 * π / 4) false (-atan2 1 1) = (-(π / 4), false) := by
  rw [atan2_one_one]
  unfold adjustOriFn
  rw [if_pos rfl]
  dsimp only
  rw [if_neg (by intro hc; nlinarith [Real.pi_pos]),
    if_neg (by intro hc; nlinarith [Real.pi_pos]),
    if_neg (by intro hc; nlinarith [Real.pi_pos])]

theorem c6_step0_st :
    (processPoint 0 0 (7 * π / 4) 0 c6p0 (initAcc initialState [c6p0, c6p1])).st
      = initialState := by
  unfold processPoint initAcc
  dsimp only
  rw [if_neg (by rw [scanIDOf_c6p0]; decide),
    if_neg (by decide : ¬ (0 : ℤ) ≤ initialState.imuPointerLast)]

theorem c6_step0_hp :
    (processPoint 0 0 (7 * π / 4) 0 c6p0 (initAcc initialState [c6p0, c6p1])).halfPassed
      = false := by
  unfold processPoint initAcc
  dsimp only
  rw [if_neg (by rw [scanIDOf_c6p0]; decide),
    if_neg (by decide : ¬ (0 : ℤ) ≤ initialState.imuPointerLast)]
  dsimp only
  rw [show -atan2 c6p0.y c6p0.x = -atan2 0 1 from rfl, c6_adjA]

theorem c6_step0_scans :
    (processPoint 0 0 (7 * π / 4) 0 c6p0 (initAcc initialState [c6p0, c6p1])).scans 15
      = [⟨0, 0, 1, 15⟩] := by
  unfold processPoint initAcc
  dsimp only
  rw [if_neg (by rw [scanIDOf_c6p0]; decide),
    if_neg (by decide : ¬ (0 : ℤ) ≤ initialState.imuPointerLast)]
  dsimp only
  rw [scanIDOf_c6p0, Function.update_same,
    show -atan2 c6p0.y c6p0.x = -atan2 0 1 from rfl, c6_adjA]
  norm_num
  exact ⟨rfl, rfl, rfl⟩

theorem c6_eval :
    (ingestPoints 0 0 (7 * π / 4) [c6p0, c6p1]
      (initAcc initialState [c6p0, c6p1])).scans 15
      = [⟨0, 0, 1, 15⟩, ⟨1, 0, 1, 15 - 1 / 70⟩] := by
  have hfold : ingestPoints 0 0 (7 * π / 4) [c6p0, c6p1]
      (initAcc initialState [c6p0, c6p1]) =
      processPoint 0 0 (7 * π / 4) 1 c6p1
        (processPoint 0 0 (7 * π / 4) 0 c6p0 (initAcc initialState [c6p0, c6p1])) := rfl
  rw [hfold]
  set acc1 := processPoint 0 0 (7 * π / 4) 0 c6p0 (initAcc initialState [c6p0, c6p1])
    with hacc1
  have h1 : acc1.st = initialState := c6_step0_st
  have h2 : acc1.halfPassed = false := c6_step0_hp
  have h3 : acc1.scans 15 = [⟨0, 0, 1, 15⟩] := c6_step0_scans
  unfold processPoint
  dsimp only
  rw [if_neg (by rw [scanIDOf_c6p1]; decide)]
  rw [if_neg (by rw [h1]; decide)]
  dsimp only
  rw [scanIDOf_c6p1, Function.update_same, h3, h2]
  rw [show -atan2 c6p1.y c6p1.x = -atan2 1 1 from rfl, c6_adjB]
  have hrt : ((-(π / 4), false).1 - 0) / (7 * π / 4 - 0) = -(1 / 7 : ℝ) := by
    dsimp only
    rw [sub_zero, sub_zero]
    rw [div_eq_iff (by positivity : (7 : ℝ) * π / 4 ≠ 0)]
    ring
  rw [hrt]
  norm_num [scanPeriod]
  exact ⟨rfl, rfl, rfl⟩

/-- C6 counterexample: a two-point sweep whose second point lies at azimuth
-π/4 relative to the start gets relative time -1/7 and stored intensity
15 - 1/70 while being placed in beam container 15; its floor is 14 ≠ 15, so
the claim's floor-decoding round-trip fails (and so does its fractional
range [-0.5, 1.5], which this point decodes to 9.857... under floor). -/
theorem C6_counterexample :
    (ingestPoints 0 0 (7 * π / 4) [c6p0, c6p1]
      (initAcc initialState [c6p0, c6p1])).scans 15
      = [⟨0, 0, 1, 15⟩, ⟨1, 0, 1, 15 - 1 / 70⟩] ∧
    ⌊(15 - 1 / 70 : ℝ)⌋ = 14 ∧ (14 : ℤ) ≠ 15 ∧
    -atan2 c6p0.y c6p0.x = 0 ∧
    adjustEndOri 0 (-atan2 c6p1.y c6p1.x + 2 * π) = 7 * π / 4 := by
  refine ⟨c6_eval, ?_, by decide, ?_, ?_⟩
  · rw [Int.floor_eq_iff]
    norm_num
  · rw [show atan2 c6p0.y c6p0.x = atan2 0 1 from rfl, atan2_zero_one, neg_zero]
  · rw [show atan2 c6p1.y c6p1.x = atan2 1 1 from rfl, atan2_one_one]
    unfold adjustEndOri
    rw [if_neg (by intro hc; nlinarith [Real.pi_pos]),
      if_neg (by intro hc; nlinarith [Real.pi_pos])]
    ring

/-! ### Selection-loop unfolding and spread-mask lemmas (C3, C7) -/

theorem spreadFwd_succ (cloud : List PointT) (ind : ℤ) (n : ℕ) (l : ℤ) (picked : ℤ → ℤ) :
    spreadFwd cloud ind (n + 1) l picked =
      if l ≤ 5 then
        (listGet? cloud (ind + l)).bind fun pa =>
          (listGet? cloud (ind + l - 1)).bind fun pb =>
            if (pa.x - pb.x) * (pa.x - pb.x) + (pa.y - pb.y) * (pa.y - pb.y) +
                (pa.z - pb.z) * (pa.z - pb.z) > 1 / 20 then some picked
            else spreadFwd cloud ind n (l + 1) (Function.update picked (ind + l) 1)
      else some picked := rfl

theorem spreadBwd_succ (cloud : List PointT) (ind : ℤ) (n : ℕ) (l : ℤ) (picked : ℤ → ℤ) :
    spreadBwd cloud ind (n + 1) l picked =
      if -5 ≤ l then
        (listGet? cloud (ind + l)).bind fun pa =>
          (listGet? cloud (ind + l + 1)).bind fun pb =>
            if (pa.x - pb.x) * (pa.x - pb.x) + (pa.y - pb.y) * (pa.y - pb.y) +
                (pa.z - pb.z) * (pa.z - pb.z) > 1 / 20 then some picked
            else spreadBwd cloud ind n (l - 1) (Function.update picked (ind + l) 1)
      else some picked := rfl

theorem spreadFwd_stop (cloud : List PointT) (ind : ℤ) (n : ℕ) (picked : ℤ → ℤ)
    (pa pb : PointT) (ha : listGet? cloud (ind + 1) = some pa)
    (hb : listGet? cloud (ind + 1 - 1) = some pb)
    (hgap : (pa.x - pb.x) * (pa.x - pb.x) + (pa.y - pb.y) * (pa.y - pb.y) +
      (pa.z - pb.z) * (pa.z - pb.z) > 1 / 20) :
    spreadFwd cloud ind (n + 1) 1 picked = some picked := by
  rw [spreadFwd_succ, if_pos (by norm_num : (1:ℤ) ≤ 5), ha, hb]
  simp only [Option.bind]
  rw [if_pos hgap]

theorem spreadBwd_stop (cloud : List PointT) (ind : ℤ) (n : ℕ) (picked : ℤ → ℤ)
    (pa pb : PointT) (ha : listGet? cloud (ind + -1) = some pa)
    (hb : listGet? cloud (ind + -1 + 1) = some pb)
    (hgap : (pa.x - pb.x) * (pa.x - pb.x) + (pa.y - pb.y) * (pa.y - pb.y) +
      (pa.z - pb.z) * (pa.z - pb.z) > 1 / 20) :
    spreadBwd cloud ind (n + 1) (-1) picked = some picked := by
  rw [spreadBwd_succ, if_pos (by norm_num : (-5:ℤ) ≤ -1), ha, hb]
  simp only [Option.bind]
  rw [if_pos hgap]

theorem c3sF5 (p : ℤ → ℤ) : spreadFwd c3cloud 5 6 1 p = some p :=
  spreadFwd_stop c3cloud 5 5 p (c3pt 6) (c3pt 5) rfl rfl (by norm_num [c3pt])

theorem c3sB5 (p : ℤ → ℤ) : spreadBwd c3cloud 5 6 (-1) p = some p :=
  spreadBwd_stop c3cloud 5 5 p (c3pt 4) (c3pt 5) rfl rfl (by norm_num [c3pt])

theorem c3sF6 (p : ℤ → ℤ) : spreadFwd c3cloud 6 6 1 p = some p :=
  spreadFwd_stop c3cloud 6 5 p (c3pt 7) (c3pt 6) rfl rfl (by norm_num [c3pt])

theorem c3sB6 (p : ℤ → ℤ) : spreadBwd c3cloud 6 6 (-1) p = some p :=
  spreadBwd_stop c3cloud 6 5 p (c3pt 5) (c3pt 6) rfl rfl (by norm_num [c3pt])

theorem c3sF7 (p : ℤ → ℤ) : spreadFwd c3cloud 7 6 1 p = some p :=
  spreadFwd_stop c3cloud 7 5 p (c3pt 8) (c3pt 7) rfl rfl (by norm_num [c3pt])

theorem c3sB7 (p : ℤ → ℤ) : spreadBwd c3cloud 7 6 (-1) p = some p :=
  spreadBwd_stop c3cloud 7 5 p (c3pt 6) (c3pt 7) rfl rfl (by norm_num [c3pt])

theorem c3g5 : listGet? c3cloud 5 = some (c3pt 5) := rfl

theorem c3g6 : listGet? c3cloud 6 = some (c3pt 6) := rfl

theorem c3g7 : listGet? c3cloud 7 = some (c3pt 7) := rfl

theorem c3g8 : listGet? c3cloud 8 = some (c3pt 8) := rfl

theorem flatIter_eq (cloud : List PointT) (k spn : ℤ) (s : SelState) :
    flatIter cloud k spn s =
      if s.st.cloudNeighborPicked (s.st.cloudSortInd k) = 0 ∧
          s.st.cloudCurvature (s.st.cloudSortInd k) < 1 / 10 then
        (listGet? cloud (s.st.cloudSortInd k)).bind fun p =>
          if 4 ≤ spn + 1 then
            some ({ s with
              st := { s.st with
                cloudLabel := Function.update s.st.cloudLabel (s.st.cloudSortInd k) (-1) }
              surfPointsFlat := s.surfPointsFlat ++ [p] }, spn + 1, true)
          else
            (spreadFwd cloud (s.st.cloudSortInd k) 6 1
                (Function.update s.st.cloudNeighborPicked (s.st.cloudSortInd k) 1)).bind
              fun picked2 =>
                (spreadBwd cloud (s.st.cloudSortInd k) 6 (-1) picked2).bind fun picked3 =>
                  some ({ s with
                    st := { s.st with
                      cloudNeighborPicked := picked3
                      cloudLabel := Function.update s.st.cloudLabel (s.st.cloudSortInd k) (-1) }
                    surfPointsFlat := s.surfPointsFlat ++ [p] }, spn + 1, false)
      else some (s, spn, false) := rfl

theorem flatLoop_succ (cloud : List PointT) (ep : ℤ) (n : ℕ) (k spn : ℤ) (s : SelState) :
    flatLoop cloud ep (n + 1) k spn s =
      if k ≤ ep then
        (flatIter cloud k spn s).bind fun r =>
          if r.2.2 then some r.1 else flatLoop cloud ep n (k + 1) r.2.1 r.1
      else some s := rfl

/-- C3 counterexample: on a sector of four flat candidates over well-separated
collinear points (sort order = index order, all curvatures 0), the flat loop
picks indices 5,6,7,8; the 4th pick (index 8) is pushed to surfPointsFlat
with label -1, yet its cloudNeighborPicked flag is still 0, because the
source breaks out of the loop before the flag assignment. -/
theorem C3_counterexample :
    (flatLoop c3cloud 8 4 5 0 c3sel).isSome = true ∧
    (flatLoop c3cloud 8 4 5 0 c3sel).elim [] (fun s => s.surfPointsFlat) =
      [c3pt 5, c3pt 6, c3pt 7, c3pt 8] ∧
    (flatLoop c3cloud 8 4 5 0 c3sel).elim 1 (fun s => s.st.cloudLabel 8) = -1 ∧
    (flatLoop c3cloud 8 4 5 0 c3sel).elim 1 (fun s => s.st.cloudNeighborPicked 8) = 0 := by
  rw [show (4:ℕ) = 0+1+1+1+1 from rfl]
  norm_num [flatLoop_succ, flatIter_eq, c3sel, initialState, c3g5, c3g6, c3g7, c3g8,
    c3sF5, c3sB5, c3sF6, c3sB6, c3sF7, c3sB7, Function.update_apply, Option.bind]

theorem spreadFwd_zero (cloud : List PointT) (ind l : ℤ) (picked : ℤ → ℤ) :
    spreadFwd cloud ind 0 l picked = if l ≤ 5 then none else some picked := rfl

theorem spreadBwd_zero (cloud : List PointT) (ind l : ℤ) (picked : ℤ → ℤ) :
    spreadBwd cloud ind 0 l picked = if -5 ≤ l then none else some picked := rfl

theorem spreadFwd_keeps_one (cloud : List PointT) (ind : ℤ) :
    ∀ (fuel : ℕ) (l : ℤ) (picked picked' : ℤ → ℤ) (j : ℤ),
      spreadFwd cloud ind fuel l picked = some picked' → picked j = 1 → picked' j = 1 := by
  intro fuel
  induction fuel with
  | zero =>
    intro l picked picked' j h hj
    rw [spreadFwd_zero] at h
    by_cases hl : l ≤ 5
    · rw [if_pos hl] at h; exact absurd h (by simp)
    · rw [if_neg hl] at h; cases Option.some.inj h; exact hj
  | succ n ih =>
    intro l picked picked' j h hj
    rw [spreadFwd_succ] at h
    by_cases hl : l ≤ 5
    · rw [if_pos hl] at h
      rcases Option.bind_eq_some.1 h with ⟨pa, hpa, h2⟩
      rcases Option.bind_eq_some.1 h2 with ⟨pb, hpb, h3⟩
      by_cases hc : (pa.x - pb.x) * (pa.x - pb.x) + (pa.y - pb.y) * (pa.y - pb.y) +
          (pa.z - pb.z) * (pa.z - pb.z) > 1 / 20
      · rw [if_pos hc] at h3; cases Option.some.inj h3; exact hj
      · rw [if_neg hc] at h3
        refine ih (l + 1) _ picked' j h3 ?_
        rcases eq_or_ne j (ind + l) with he | he
        · rw [he, Function.update_same]
        · rw [Function.update_noteq he]; exact hj
    · rw [if_neg hl] at h; cases Option.some.inj h; exact hj

theorem spreadBwd_keeps_one (cloud : List PointT) (ind : ℤ) :
    ∀ (fuel : ℕ) (l : ℤ) (picked picked' : ℤ → ℤ) (j : ℤ),
      spreadBwd cloud ind fuel l picked = some picked' → picked j = 1 → picked' j = 1 := by
  intro fuel
  induction fuel with
  | zero =>
    intro l picked picked' j h hj
    rw [spreadBwd_zero] at h
    by_cases hl : -5 ≤ l
    · rw [if_pos hl] at h; exact absurd h (by simp)
    · rw [if_neg hl] at h; cases Option.some.inj h; exact hj
  | succ n ih =>
    intro l picked picked' j h hj
    rw [spreadBwd_succ] at h
    by_cases hl : -5 ≤ l
    · rw [if_pos hl] at h
      rcases Option.bind_eq_some.1 h with ⟨pa, hpa, h2⟩
      rcases Option.bind_eq_some.1 h2 with ⟨pb, hpb, h3⟩
      by_cases hc : (pa.x - pb.x) * (pa.x - pb.x) + (pa.y - pb.y) * (pa.y - pb.y) +
          (pa.z - pb.z) * (pa.z - pb.z) > 1 / 20
      · rw [if_pos hc] at h3; cases Option.some.inj h3; exact hj
      · rw [if_neg hc] at h3
        refine ih (l - 1) _ picked' j h3 ?_
        rcases eq_or_ne j (ind + l) with he | he
        · rw [he, Function.update_same]
        · rw [Function.update_noteq he]; exact hj
    · rw [if_neg hl] at h; cases Option.some.inj h; exact hj

theorem cornerIter_eq (cloud : List PointT) (k lpn : ℤ) (s : SelState) :
    cornerIter cloud k lpn s =
      if s.st.cloudNeighborPicked (s.st.cloudSortInd k) = 0 ∧
          s.st.cloudCurvature (s.st.cloudSortInd k) > 1 / 10 then
        if 20 < lpn + 1 then some (s, lpn + 1, true)
        else
          (listGet? cloud (s.st.cloudSortInd k)).bind fun p =>
            (spreadFwd cloud (s.st.cloudSortInd k) 6 1
                (Function.update
                  (if lpn + 1 ≤ 2 then
                    { s with
                      st := { s.st with
                        cloudLabel := Function.update s.st.cloudLabel (s.st.cloudSortInd k) 2 }
                      cornerPointsSharp := s.cornerPointsSharp ++ [p]
                      cornerPointsLessSharp := s.cornerPointsLessSharp ++ [p] }
                  else
                    { s with
                      st := { s.st with
                        cloudLabel := Function.update s.st.cloudLabel (s.st.cloudSortInd k) 1 }
                      cornerPointsLessSharp :=
                        s.cornerPointsLessSharp ++ [p] }).st.cloudNeighborPicked
                  (s.st.cloudSortInd k) 1)).bind fun picked2 =>
              (spreadBwd cloud (s.st.cloudSortInd k) 6 (-1) picked2).bind fun picked3 =>
                some ({ (if lpn + 1 ≤ 2 then
                    { s with
                      st := { s.st with
                        cloudLabel := Function.update s.st.cloudLabel (s.st.cloudSortInd k) 2 }
                      cornerPointsSharp := s.cornerPointsSharp ++ [p]
                      cornerPointsLessSharp := s.cornerPointsLessSharp ++ [p] }
                  else
                    { s with
                      st := { s.st with
                        cloudLabel := Function.update s.st.cloudLabel (s.st.cloudSortInd k) 1 }
                      cornerPointsLessSharp := s.cornerPointsLessSharp ++ [p] }) with
                  st := { (if lpn + 1 ≤ 2 then
                    { s with
                      st := { s.st with
                        cloudLabel := Function.update s.st.cloudLabel (s.st.cloudSortInd k) 2 }
                      cornerPointsSharp := s.cornerPointsSharp ++ [p]
                      cornerPointsLessSharp := s.cornerPointsLessSharp ++ [p] }
                  else
                    { s with
                      st := { s.st with
                        cloudLabel := Function.update s.st.cloudLabel (s.st.cloudSortInd k) 1 }
                      cornerPointsLessSharp := s.cornerPointsLessSharp ++ [p] }).st with
                    cloudNeighborPicked := picked3 } }, lpn + 1, false)
      else some (s, lpn, false) := rfl

/-- C3 (amended): every corner pick within the pick budget has its
cloudNeighborPicked flag set to 1 in the state the iteration returns, and so
does every flat pick as long as it is among the first three of its sector;
the 4th flat pick of a sector breaks out before the flag is set (see the
counterexample). -/
theorem C3_picked_amended :
    (∀ (cloud : List PointT) (k lpn : ℤ) (s : SelState) (r : SelState × ℤ × Bool),
        cornerIter cloud k lpn s = some r → lpn + 1 ≤ 20 →
        s.st.cloudNeighborPicked (s.st.cloudSortInd k) = 0 →
        s.st.cloudCurvature (s.st.cloudSortInd k) > 1 / 10 →
        r.1.st.cloudNeighborPicked (s.st.cloudSortInd k) = 1) ∧
    (∀ (cloud : List PointT) (k spn : ℤ) (s : SelState) (r : SelState × ℤ × Bool),
        flatIter cloud k spn s = some r → spn + 1 ≤ 3 →
        s.st.cloudNeighborPicked (s.st.cloudSortInd k) = 0 →
        s.st.cloudCurvature (s.st.cloudSortInd k) < 1 / 10 →
        r.1.st.cloudNeighborPicked (s.st.cloudSortInd k) = 1) := by
  constructor
  · intro cloud k lpn s r h h20 h0 hc
    rw [cornerIter_eq, if_pos ⟨h0, hc⟩, if_neg (by omega : ¬ 20 < lpn + 1)] at h
    rcases Option.bind_eq_some.1 h with ⟨p, hp, h2⟩
    rcases Option.bind_eq_some.1 h2 with ⟨picked2, hp2, h3⟩
    rcases Option.bind_eq_some.1 h3 with ⟨picked3, hp3, h4⟩
    cases Option.some.inj h4
    show picked3 (s.st.cloudSortInd k) = 1
    refine spreadBwd_keeps_one cloud _ 6 (-1) picked2 picked3 _ hp3 ?_
    refine spreadFwd_keeps_one cloud _ 6 1 _ picked2 _ hp2 ?_
    exact Function.update_same _ _ _
  · intro cloud k spn s r h h3n h0 hc
    rw [flatIter_eq, if_pos ⟨h0, hc⟩] at h
    simp only [if_neg (by omega : ¬ 4 ≤ spn + 1)] at h
    rcases Option.bind_eq_some.1 h with ⟨p, hp, h2⟩
    rcases Option.bind_eq_some.1 h2 with ⟨picked2, hp2, h3⟩
    rcases Option.bind_eq_some.1 h3 with ⟨picked3, hp3, h4⟩
    cases Option.some.inj h4
    show picked3 (s.st.cloudSortInd k) = 1
    refine spreadBwd_keeps_one cloud _ 6 (-1) picked2 picked3 _ hp3 ?_
    refine spreadFwd_keeps_one cloud _ 6 1 _ picked2 _ hp2 ?_
    exact Function.update_same _ _ _

/-- Witness for C3: the flat part of the amended theorem applied at the
concrete sector input, first flat pick (index 5). -/
theorem C3_witness :
    (flatIter c3cloud 5 0 c3sel).elim 0 (fun r => r.1.st.cloudNeighborPicked 5) = 1 := by
  cases hit : flatIter c3cloud 5 0 c3sel with
  | none =>
    rw [flatIter_eq] at hit
    norm_num [c3sel, initialState, c3g5, c3sF5, c3sB5, Function.update_apply,
      Option.bind] at hit
    exact Option.noConfusion hit
  | some r =>
    simp only [Option.elim]
    exact C3_picked_amended.2 c3cloud 5 0 c3sel r hit (by norm_num) rfl
      (by norm_num [c3sel, initialState])

/-! ### Sharp-subset-of-lessSharp invariant (C7) -/

theorem cornerLoop_zero (cloud : List PointT) (sp k lpn : ℤ) (s : SelState) :
    cornerLoop cloud sp 0 k lpn s = if sp ≤ k then none else some s := rfl

theorem cornerLoop_succ (cloud : List PointT) (sp : ℤ) (n : ℕ) (k lpn : ℤ) (s : SelState) :
    cornerLoop cloud sp (n + 1) k lpn s =
      if sp ≤ k then
        (cornerIter cloud k lpn s).bind fun r =>
          if r.2.2 then some r.1 else cornerLoop cloud sp n (k - 1) r.2.1 r.1
      else some s := rfl

theorem flatLoop_zero (cloud : List PointT) (ep k spn : ℤ) (s : SelState) :
    flatLoop cloud ep 0 k spn s = if k ≤ ep then none else some s := rfl

theorem lessFlatLoop_zero (cloud : List PointT) (ep k : ℤ) (s : SelState) :
    lessFlatLoop cloud ep 0 k s = if k ≤ ep then none else some s := rfl

theorem lessFlatLoop_succ (cloud : List PointT) (ep : ℤ) (n : ℕ) (k : ℤ) (s : SelState) :
    lessFlatLoop cloud ep (n + 1) k s =
      if k ≤ ep then
        if s.st.cloudLabel k ≤ 0 then
          (listGet? cloud k).bind fun p =>
            lessFlatLoop cloud ep n (k + 1) { s with lessFlatScan := s.lessFlatScan ++ [p] }
        else lessFlatLoop cloud ep n (k + 1) s
      else some s := rfl

theorem cornerIter_sharp (cloud : List PointT) (k lpn : ℤ) (s : SelState)
    (r : SelState × ℤ × Bool) (h : cornerIter cloud k lpn s = some r)
    (hs : s.cornerPointsSharp.Sublist s.cornerPointsLessSharp) :
    r.1.cornerPointsSharp.Sublist r.1.cornerPointsLessSharp := by
  rw [cornerIter_eq] at h
  by_cases hg : s.st.cloudNeighborPicked (s.st.cloudSortInd k) = 0 ∧
      s.st.cloudCurvature (s.st.cloudSortInd k) > 1 / 10
  · rw [if_pos hg] at h
    by_cases hb : 20 < lpn + 1
    · rw [if_pos hb] at h; cases Option.some.inj h; exact hs
    · rw [if_neg hb] at h
      rcases Option.bind_eq_some.1 h with ⟨p, hp, h2⟩
      rcases Option.bind_eq_some.1 h2 with ⟨picked2, hp2, h3⟩
      rcases Option.bind_eq_some.1 h3 with ⟨picked3, hp3, h4⟩
      cases Option.some.inj h4
      by_cases hc2 : lpn + 1 ≤ 2
      · simp only [if_pos hc2]
        exact hs.append (List.Sublist.refl [p])
      · simp only [if_neg hc2]
        exact hs.trans (List.sublist_append_left _ _)
  · rw [if_neg hg] at h; cases Option.some.inj h; exact hs

theorem cornerLoop_sharp (cloud : List PointT) (sp : ℤ) :
    ∀ (fuel : ℕ) (k lpn : ℤ) (s s' : SelState),
      cornerLoop cloud sp fuel k lpn s = some s' →
      s.cornerPointsSharp.Sublist s.cornerPointsLessSharp →
      s'.cornerPointsSharp.Sublist s'.cornerPointsLessSharp := by
  intro fuel
  induction fuel with
  | zero =>
    intro k lpn s s' h hs
    rw [cornerLoop_zero] at h
    by_cases hk : sp ≤ k
    · rw [if_pos hk] at h; exact absurd h (by simp)
    · rw [if_neg hk] at h; cases Option.some.inj h; exact hs
  | succ n ih =>
    intro k lpn s s' h hs
    rw [cornerLoop_succ] at h
    by_cases hk : sp ≤ k
    · rw [if_pos hk] at h
      rcases Option.bind_eq_some.1 h with ⟨r, hr, h2⟩
      have hr1 := cornerIter_sharp cloud k lpn s r hr hs
      by_cases hbb : r.2.2 = true
      · rw [if_pos hbb] at h2; cases Option.some.inj h2; exact hr1
      · rw [if_neg hbb] at h2; exact ih _ _ _ _ h2 hr1
    · rw [if_neg hk] at h; cases Option.some.inj h; exact hs

theorem flatIter_corner_frame (cloud : List PointT) (k spn : ℤ) (s : SelState)
    (r : SelState × ℤ × Bool) (h : flatIter cloud k spn s = some r) :
    r.1.cornerPointsSharp = s.cornerPointsSharp ∧
    r.1.cornerPointsLessSharp = s.cornerPointsLessSharp := by
  rw [flatIter_eq] at h
  by_cases hg : s.st.cloudNeighborPicked (s.st.cloudSortInd k) = 0 ∧
      s.st.cloudCurvature (s.st.cloudSortInd k) < 1 / 10
  · rw [if_pos hg] at h
    rcases Option.bind_eq_some.1 h with ⟨p, hp, h2⟩
    by_cases h4 : 4 ≤ spn + 1
    · rw [if_pos h4] at h2; cases Option.some.inj h2; exact ⟨rfl, rfl⟩
    · rw [if_neg h4] at h2
      rcases Option.bind_eq_some.1 h2 with ⟨picked2, hp2, h3⟩
      rcases Option.bind_eq_some.1 h3 with ⟨picked3, hp3, h5⟩
      cases Option.some.inj h5; exact ⟨rfl, rfl⟩
  · rw [if_neg hg] at h; cases Option.some.inj h; exact ⟨rfl, rfl⟩

theorem flatLoop_corner_frame (cloud : List PointT) (ep : ℤ) :
    ∀ (fuel : ℕ) (k spn : ℤ) (s s' : SelState),
      flatLoop cloud ep fuel k spn s = some s' →
      s'.cornerPointsSharp = s.cornerPointsSharp ∧
      s'.cornerPointsLessSharp = s.cornerPointsLessSharp := by
  intro fuel
  induction fuel with
  | zero =>
    intro k spn s s' h
    rw [flatLoop_zero] at h
    by_cases hk : k ≤ ep
    · rw [if_pos hk] at h; exact absurd h (by simp)
    · rw [if_neg hk] at h; cases Option.some.inj h; exact ⟨rfl, rfl⟩
  | succ n ih =>
    intro k spn s s' h
    rw [flatLoop_succ] at h
    by_cases hk : k ≤ ep
    · rw [if_pos hk] at h
      rcases Option.bind_eq_some.1 h with ⟨r, hr, h2⟩
      have hfr := flatIter_corner_frame cloud k spn s r hr
      by_cases hbb : r.2.2 = true
      · rw [if_pos hbb] at h2; cases Option.some.inj h2; exact hfr
      · rw [if_neg hbb] at h2
        rcases ih _ _ _ _ h2 with ⟨e1, e2⟩
        exact ⟨e1.trans hfr.1, e2.trans hfr.2⟩
    · rw [if_neg hk] at h; cases Option.some.inj h; exact ⟨rfl, rfl⟩

theorem lessFlatLoop_corner_frame (cloud : List PointT) (ep : ℤ) :
    ∀ (fuel : ℕ) (k : ℤ) (s s' : SelState),
      lessFlatLoop cloud ep fuel k s = some s' →
      s'.cornerPointsSharp = s.cornerPointsSharp ∧
      s'.cornerPointsLessSharp = s.cornerPointsLessSharp := by
  intro fuel
  induction fuel with
  | zero =>
    intro k s s' h
    rw [lessFlatLoop_zero] at h
    by_cases hk : k ≤ ep
    · rw [if_pos hk] at h; exact absurd h (by simp)
    · rw [if_neg hk] at h; cases Option.some.inj h; exact ⟨rfl, rfl⟩
  | succ n ih =>
    intro k s s' h
    rw [lessFlatLoop_succ] at h
    by_cases hk : k ≤ ep
    · rw [if_pos hk] at h
      by_cases hl : s.st.cloudLabel k ≤ 0
      · rw [if_pos hl] at h
        rcases Option.bind_eq_some.1 h with ⟨p, hp, h2⟩
        exact ih (k + 1) { s with lessFlatScan := s.lessFlatScan ++ [p] } s' h2
      · rw [if_neg hl] at h
        exact ih _ _ _ h
    · rw [if_neg hk] at h; cases Option.some.inj h; exact ⟨rfl, rfl⟩

theorem sectorRun_sharp (cloud : List PointT) (ssi sei : ℤ → ℤ) (i j : ℤ)
    (s s' : SelState) (h : sectorRun cloud ssi sei i j s = some s')
    (hs : s.cornerPointsSharp.Sublist s.cornerPointsLessSharp) :
    s'.cornerPointsSharp.Sublist s'.cornerPointsLessSharp := by
  simp only [sectorRun, Option.bind_eq_bind'] at h
  rcases Option.bind_eq_some.1 h with ⟨s2, hs2, h2⟩
  rcases Option.bind_eq_some.1 h2 with ⟨s3, hs3, h3⟩
  have i1 := cornerLoop_sharp cloud _ _ _ _ _ s2 hs2 hs
  rcases flatLoop_corner_frame cloud _ _ _ _ _ s3 hs3 with ⟨e1, e2⟩
  rcases lessFlatLoop_corner_frame cloud _ _ _ s3 s' h3 with ⟨f1, f2⟩
  rw [f1, f2, e1, e2]
  exact i1

theorem sectorFold_nil (cloud : List PointT) (ssi sei : ℤ → ℤ) (i : ℤ) (s : SelState) :
    sectorFold cloud ssi sei i [] s = some s := rfl

theorem sectorFold_cons (cloud : List PointT) (ssi sei : ℤ → ℤ) (i j : ℤ)
    (rest : List ℤ) (s : SelState) :
    sectorFold cloud ssi sei i (j :: rest) s =
      (sectorRun cloud ssi sei i j s).bind fun s1 =>
        sectorFold cloud ssi sei i rest s1 := rfl

theorem sectorFold_sharp (cloud : List PointT) (ssi sei : ℤ → ℤ) (i : ℤ) :
    ∀ (js : List ℤ) (s s' : SelState),
      sectorFold cloud ssi sei i js s = some s' →
      s.cornerPointsSharp.Sublist s.cornerPointsLessSharp →
      s'.cornerPointsSharp.Sublist s'.cornerPointsLessSharp := by
  intro js
  induction js with
  | nil =>
    intro s s' h hs
    rw [sectorFold_nil] at h; cases Option.some.inj h; exact hs
  | cons j rest ih =>
    intro s s' h hs
    rw [sectorFold_cons] at h
    rcases Option.bind_eq_some.1 h with ⟨s1, hs1, h2⟩
    exact ih s1 s' h2 (sectorRun_sharp cloud ssi sei i j s s1 hs1 hs)

theorem beamRun_nil (d : List PointT → List PointT) (cloud : List PointT)
    (ssi sei : ℤ → ℤ) (s : SelState) (lf : List PointT) :
    beamRun d cloud ssi sei [] s lf = some (s, lf) := rfl

theorem beamRun_cons (d : List PointT → List PointT) (cloud : List PointT)
    (ssi sei : ℤ → ℤ) (i : ℤ) (rest : List ℤ) (s : SelState) (lf : List PointT) :
    beamRun d cloud ssi sei (i :: rest) s lf =
      (sectorFold cloud ssi sei i [0, 1, 2, 3, 4, 5] { s with lessFlatScan := [] }).bind
        fun s6 => beamRun d cloud ssi sei rest s6 (lf ++ d s6.lessFlatScan) := rfl

theorem beamRun_sharp (d : List PointT → List PointT) (cloud : List PointT)
    (ssi sei : ℤ → ℤ) :
    ∀ (is : List ℤ) (s : SelState) (lf : List PointT) (r : SelState × List PointT),
      beamRun d cloud ssi sei is s lf = some r →
      s.cornerPointsSharp.Sublist s.cornerPointsLessSharp →
      r.1.cornerPointsSharp.Sublist r.1.cornerPointsLessSharp := by
  intro is
  induction is with
  | nil =>
    intro s lf r h hs
    rw [beamRun_nil] at h; cases Option.some.inj h; exact hs
  | cons i rest ih =>
    intro s lf r h hs
    rw [beamRun_cons] at h
    rcases Option.bind_eq_some.1 h with ⟨s6, hs6, h2⟩
    refine ih s6 _ r h2 ?_
    exact sectorFold_sharp cloud ssi sei i [0, 1, 2, 3, 4, 5]
      { s with lessFlatScan := [] } s6 hs6 hs

/-- C7: for every sweep input — any downsample function, scan time, cloud
and initial state — every point pushed to cornerPointsSharp is also pushed
to cornerPointsLessSharp, in order: the published sharp cloud is a Sublist
(hence a sub-multiset) of the published less-sharp cloud. -/
theorem C7_sharp_sublist_lessSharp (downsample : List PointT → List PointT) (timeScanCur : ℝ)
    (cloudIn : List P3) (st0 : GlobalState) :
    ((laserCloudHandler downsample timeScanCur cloudIn st0).elim []
        (fun o => o.1.cornerPointsSharp)).Sublist
      ((laserCloudHandler downsample timeScanCur cloudIn st0).elim []
        (fun o => o.1.cornerPointsLessSharp)) := by
  cases hit : laserCloudHandler downsample timeScanCur cloudIn st0 with
  | none => simp only [Option.elim]; exact List.Sublist.refl []
  | some o =>
    simp only [Option.elim]
    simp only [laserCloudHandler, Option.bind_eq_bind'] at hit
    rcases Option.bind_eq_some.1 hit with ⟨p0, hp0, h1⟩
    rcases Option.bind_eq_some.1 h1 with ⟨pN, hpN, h2⟩
    rcases Option.bind_eq_some.1 h2 with ⟨cse, hcse, h3⟩
    rcases Option.bind_eq_some.1 h3 with ⟨st2, hst2, h4⟩
    rcases Option.bind_eq_some.1 h4 with ⟨br, hbr, h5⟩
    cases Option.some.inj h5
    exact beamRun_sharp downsample _ _ _ _ _ _ br hbr (List.Sublist.refl [])

end

end ScanReg
